import Mathlib

/-!
Verification development for the scr portable screen-handling library
(screen.cpp / scr.hpp).  The POSIX (curses) build is the modelled
configuration: it is the only one with a physical shadow image and a
diff-based refresh.  Bytes of the interleaved character/attribute screen
image are modelled as natural numbers (the unsigned 8-bit view of the C
chars); the image itself is a function from flat byte index to byte, and
each C loop is embedded as a fold performing the same stores.
-/

set_option maxRecDepth 8000

namespace scr

-- ===================== Color constants (scr.hpp) =====================

def WHITE : Nat := 0x07

def REV_BLACK : Nat := 0x00

def REV_WHITE : Nat := 0x70

def BRIGHT : Nat := 0x08

def BLINK : Nat := 0x80

-- ===================== Box model (scr.hpp / screen.cpp) =====================

/-- The box drawing characters (struct BoxChars in scr.hpp). -/
structure BoxChars where
  horizontal : Int
  vertical : Int
  upper_left : Int
  upper_right : Int
  lower_left : Int
  lower_right : Int
  left_stop : Int
  right_stop : Int
  top_stop : Int
  bottom_stop : Int
  cross : Int
  deriving DecidableEq

/-- The permissible box types (enum BoxType in scr.hpp), in declaration order. -/
inductive BoxType where
  | DOUBLE_LINE
  | SINGLE_LINE
  | DARK_GRAPHIC
  | LIGHT_GRAPHIC
  | SOLID
  | ASCII
  | BLANK_BOX
  | NO_BORDER
  deriving DecidableEq, Fintype

/-- Ordinal of a BoxType enumerator, as used for array indexing in C. -/
def BoxType.toNat : BoxType → Nat
  | .DOUBLE_LINE => 0
  | .SINGLE_LINE => 1
  | .DARK_GRAPHIC => 2
  | .LIGHT_GRAPHIC => 3
  | .SOLID => 4
  | .ASCII => 5
  | .BLANK_BOX => 6
  | .NO_BORDER => 7

/-- The box_definitions array of screen.cpp: seven glyph sets
(double, single, dark graphic, light graphic, solid, ASCII, blank). -/
def box_definitions : List BoxChars :=
  [⟨205, 186, 201, 187, 200, 188, 181, 198, 208, 210, 206⟩,
   ⟨196, 179, 218, 191, 192, 217, 180, 195, 193, 194, 197⟩,
   ⟨177, 177, 177, 177, 177, 177, 177, 177, 177, 177, 177⟩,
   ⟨176, 176, 176, 176, 176, 176, 176, 176, 176, 176, 176⟩,
   ⟨219, 219, 219, 219, 219, 219, 219, 219, 219, 219, 219⟩,
   ⟨45, 124, 43, 43, 43, 43, 43, 43, 43, 43, 43⟩,
   ⟨32, 32, 32, 32, 32, 32, 32, 32, 32, 32, 32⟩]

/-- get_box_characters of screen.cpp.  The first argument is the
SCR_ASCIIBOXES compile-time flag.  The C array access
box_definitions[the_type] is modelled with List.get?, so an
out-of-bounds ordinal yields none. -/
def get_box_characters (asciiBoxes : Bool) (the_type : BoxType) : Option BoxChars :=
  if asciiBoxes then
    if the_type = BoxType.BLANK_BOX then box_definitions.get? BoxType.BLANK_BOX.toNat
    else box_definitions.get? BoxType.ASCII.toNat
  else box_definitions.get? the_type.toNat

-- ===================== Attribute model (screen.cpp) =====================

/-- convert_attribute of screen.cpp.  The first argument is the POSIX
global color_works; a color-capable backend returns the attribute
unchanged.  Masks follow the source: REV_BLACK = 0, WHITE = 0x07,
REV_WHITE = 0x70. -/
def convert_attribute (color_works : Bool) (attr : Nat) : Nat :=
  if color_works then attr
  else if attr &&& 0x70 = REV_BLACK then attr ||| WHITE
  else (attr ||| REV_WHITE) &&& 0xF8

/-- reverse_attribute of screen.cpp: swap the 3-bit foreground and
background fields, keep everything else. -/
def reverse_attribute (attr : Nat) : Nat :=
  let first := attr &&& 0x07
  let second := (attr &&& 0x70) >>> 4
  let erased := (attr &&& 0xf8) &&& 0x8f
  (erased ||| (first <<< 4)) ||| second

-- ===================== Region clamping (screen.cpp) =====================

/-- adjust_dimensions of screen.cpp: clamp a region (given by reference
parameters r, c, w, h) against the screen geometry.  Returned as the
tuple (row, column, width, height) of the adjusted values. -/
def adjust_dimensions (total_rows total_columns r c w h : Int) : Int × Int × Int × Int :=
  let r1 := if r < 1 then 1 else r
  let r2 := if r1 > total_rows then total_rows else r1
  let c1 := if c < 1 then 1 else c
  let c2 := if c1 > total_columns then total_columns else c1
  let h1 := if h ≤ 0 then 1 else h
  let w1 := if w ≤ 0 then 1 else w
  let h2 := if r2 + h1 - 1 > total_rows then total_rows - r2 + 1 else h1
  let w2 := if c2 + w1 - 1 > total_columns then total_columns - c2 + 1 else w1
  (r2, c2, w2, h2)

/-- Largest string print can handle (maximum_print_size in screen.cpp). -/
def maximum_print_size : Nat := 1024

-- ===================== Screen state (POSIX backend globals) =====================

/-- The POSIX-backend globals of screen.cpp gathered into one state:
geometry, the color_works flag, the interleaved virtual image
screen_image and physical shadow image physical_image (functions from
flat byte index to unsigned byte value), and the virtual and physical
cursor coordinates. -/
structure ScrState where
  total_rows : Nat
  total_columns : Nat
  color_works : Bool
  screen_image : Nat → Nat
  physical_image : Nat → Nat
  virtual_row : Int
  virtual_column : Int
  physical_row : Int
  physical_column : Int

/-- Store one byte at a flat index. -/
def setByte (img : Nat → Nat) (j v : Nat) : Nat → Nat :=
  fun i => if i = j then v else img i

/-- Effect of std::memcpy(dst + dOff, src + sOff, len) on the dst array,
for non-overlapping source and destination ranges. -/
def memcpy (dst : Nat → Nat) (dOff : Nat) (src : Nat → Nat) (sOff len : Nat) : Nat → Nat :=
  fun i => if dOff ≤ i ∧ i < dOff + len then src (sOff + (i - dOff)) else dst i

/-- Flat byte offset of a region's upper-left corner, as computed by
screen_image + ((row - 1) * 2 * total_columns) + (column - 1) * 2. -/
def regionBase (s : ScrState) (r c : Int) : Nat :=
  (r.toNat - 1) * (2 * s.total_columns) + (c.toNat - 1) * 2

/-- Row-by-row memcpy loop between an image and a separate buffer:
iteration k copies len bytes from sBase + k * sStride to
dBase + k * dStride. -/
def copy_rows (img src : Nat → Nat) (dBase dStride sBase sStride len m : Nat) : Nat → Nat :=
  (List.range m).foldl (fun im k => memcpy im (dBase + k * dStride) src (sBase + k * sStride) len) img

/-- scr::read: copy the region's interleaved bytes into the caller
buffer, one memcpy of row_length = 2 * width bytes per row.  Returns
the caller buffer after the call. -/
def read (s : ScrState) (row column width height : Int) (buffer : Nat → Nat) : Nat → Nat :=
  let q := adjust_dimensions (s.total_rows : Int) (s.total_columns : Int) row column width height
  let row_length := 2 * q.2.2.1.toNat
  copy_rows buffer s.screen_image 0 row_length (regionBase s q.1 q.2.1)
    (2 * s.total_columns) row_length q.2.2.2.toNat

/-- scr::write: copy the caller buffer's interleaved bytes into the
region, one memcpy of row_length = 2 * width bytes per row. -/
def write (s : ScrState) (row column width height : Int) (buffer : Nat → Nat) : ScrState :=
  let q := adjust_dimensions (s.total_rows : Int) (s.total_columns : Int) row column width height
  let row_length := 2 * q.2.2.1.toNat
  { s with
    screen_image := copy_rows s.screen_image buffer (regionBase s q.1 q.2.1)
      (2 * s.total_columns) 0 row_length row_length q.2.2.2.toNat }

/-- Inner loops of scr::write_text: for each row rr and column i of the
region, store buffer[rr * w + i] into the character byte. -/
def text_rows (img src : Nat → Nat) (base stride w h : Nat) : Nat → Nat :=
  (List.range h).foldl
    (fun im rr =>
      (List.range w).foldl
        (fun im2 i => setByte im2 (base + rr * stride + 2 * i) (src (rr * w + i))) im)
    img

/-- scr::write_text: copy characters only, attributes untouched. -/
def write_text (s : ScrState) (row column width height : Int) (buffer : Nat → Nat) : ScrState :=
  let q := adjust_dimensions (s.total_rows : Int) (s.total_columns : Int) row column width height
  { s with
    screen_image := text_rows s.screen_image buffer (regionBase s q.1 q.2.1)
      (2 * s.total_columns) q.2.2.1.toNat q.2.2.2.toNat }

/-- Inner loop of scr::clear for one row: store the pair (ch, a) into
each of the w cells starting at byte offset off. -/
def fill_row (img : Nat → Nat) (off w ch a : Nat) : Nat → Nat :=
  (List.range w).foldl (fun im i => setByte (setByte im (off + 2 * i) ch) (off + 2 * i + 1) a) img

/-- Outer loop of scr::clear: fill every row of the region. -/
def fill_rows (img : Nat → Nat) (base stride w h ch a : Nat) : Nat → Nat :=
  (List.range h).foldl (fun im rr => fill_row im (base + rr * stride) w ch a) img

/-- scr::clear: fill the clamped region with the space character and the
converted attribute (stored through a char cast, hence mod 256). -/
def clear (s : ScrState) (row column width height : Int) (attr : Nat) : ScrState :=
  let q := adjust_dimensions (s.total_rows : Int) (s.total_columns : Int) row column width height
  let a := convert_attribute s.color_works attr
  { s with
    screen_image := fill_rows s.screen_image (regionBase s q.1 q.2.1)
      (2 * s.total_columns) q.2.2.1.toNat q.2.2.2.toNat 32 (a % 256) }

/-- Inner loops of scr::set_color: rewrite only the attribute byte of
every cell in the region. -/
def color_rows (img : Nat → Nat) (base stride w h a : Nat) : Nat → Nat :=
  (List.range h).foldl
    (fun im rr =>
      (List.range w).foldl (fun im2 i => setByte im2 (base + rr * stride + 2 * i + 1) a) im)
    img

/-- scr::set_color. -/
def set_color (s : ScrState) (row column width height : Int) (attr : Nat) : ScrState :=
  let q := adjust_dimensions (s.total_rows : Int) (s.total_columns : Int) row column width height
  let a := convert_attribute s.color_works attr
  { s with
    screen_image := color_rows s.screen_image (regionBase s q.1 q.2.1)
      (2 * s.total_columns) q.2.2.1.toNat q.2.2.2.toNat (a % 256) }

/-- The while loop of scr::print: while (*string && width--), store the
character and the attribute (through a char cast).  The text list holds
the bytes of the formatted string held in work_buffer. -/
def print_loop (img : Nat → Nat) (off w : Nat) (text : List Nat) (a : Nat) : Nat → Nat :=
  match text with
  | [] => img
  | ch :: rest =>
    if ch = 0 then img
    else
      match w with
      | 0 => img
      | w' + 1 => print_loop (setByte (setByte img off ch) (off + 1) (a % 256)) (off + 2) w' rest a

/-- scr::print: clamp (row, column, count, 1), convert the attribute,
format into work_buffer (vsnprintf truncates the formatted text to
maximum_print_size characters), then run the store loop.  The formatted
text is taken as the already-formatted byte list. -/
def print (s : ScrState) (row column : Int) (count : Nat) (attr : Nat) (text : List Nat) : ScrState :=
  let q := adjust_dimensions (s.total_rows : Int) (s.total_columns : Int) row column (count : Int) 1
  let a := convert_attribute s.color_works attr
  { s with
    screen_image := print_loop s.screen_image (regionBase s q.1 q.2.1) q.2.2.1.toNat
      (text.take maximum_print_size) a }

/-- The while loop of scr::print_text: characters only, the attribute
byte of each cell is skipped over. -/
def print_text_loop (img : Nat → Nat) (off w : Nat) (text : List Nat) : Nat → Nat :=
  match text with
  | [] => img
  | ch :: rest =>
    if ch = 0 then img
    else
      match w with
      | 0 => img
      | w' + 1 => print_text_loop (setByte img off ch) (off + 2) w' rest

/-- scr::print_text. -/
def print_text (s : ScrState) (row column : Int) (count : Nat) (text : List Nat) : ScrState :=
  let q := adjust_dimensions (s.total_rows : Int) (s.total_columns : Int) row column (count : Int) 1
  { s with
    screen_image := print_text_loop s.screen_image (regionBase s q.1 q.2.1) q.2.2.1.toNat
      (text.take maximum_print_size) }

/-- Scroll directions (enum direction_t in scr.hpp). -/
inductive direction_t where
  | UP
  | DOWN
  deriving DecidableEq

/-- The UP copy loop of scr::scroll: iteration i copies len bytes from
row offset (i + k) to row offset i (top to bottom). -/
def copy_rows_asc (img : Nat → Nat) (base stride len k m : Nat) : Nat → Nat :=
  (List.range m).foldl
    (fun im i => memcpy im (base + i * stride) im (base + (i + k) * stride) len) img

/-- The DOWN copy loop of scr::scroll with region height h: iteration i
copies len bytes from row offset (h - 1 - i - k) to row offset
(h - 1 - i) (bottom to top). -/
def copy_rows_desc (img : Nat → Nat) (base stride len k h m : Nat) : Nat → Nat :=
  (List.range m).foldl
    (fun im i => memcpy im (base + (h - 1 - i) * stride) im (base + (h - 1 - i - k) * stride) len)
    img

/-- scr::scroll: no-op for number_of_rows <= 0; clear the whole region
when number_of_rows >= height; otherwise shift the surviving rows with
the direction's copy loop and clear the vacated rows (the attribute
passed on to clear is the already-converted one, as in the source). -/
def scroll (s : ScrState) (dir : direction_t)
    (row column width height number_of_rows : Int) (attr : Nat) : ScrState :=
  if number_of_rows ≤ 0 then s
  else
    let q := adjust_dimensions (s.total_rows : Int) (s.total_columns : Int) row column width height
    let a := convert_attribute s.color_works attr
    if q.2.2.2 ≤ number_of_rows then clear s q.1 q.2.1 q.2.2.1 q.2.2.2 a
    else
      match dir with
      | .UP =>
          clear
            { s with
              screen_image := copy_rows_asc s.screen_image (regionBase s q.1 q.2.1)
                (2 * s.total_columns) (2 * q.2.2.1.toNat) number_of_rows.toNat
                (q.2.2.2.toNat - number_of_rows.toNat) }
            (q.1 + (q.2.2.2 - number_of_rows)) q.2.1 q.2.2.1 number_of_rows a
      | .DOWN =>
          clear
            { s with
              screen_image := copy_rows_desc s.screen_image (regionBase s q.1 q.2.1)
                (2 * s.total_columns) (2 * q.2.2.1.toNat) number_of_rows.toNat q.2.2.2.toNat
                (q.2.2.2.toNat - number_of_rows.toNat) }
            q.1 q.2.1 q.2.2.1 number_of_rows a

/-- scr::set_cursor_position: clamp and store the virtual cursor. -/
def set_cursor_position (s : ScrState) (row column : Int) : ScrState :=
  let r1 := if row < 1 then 1 else row
  let r2 := if r1 > (s.total_rows : Int) then (s.total_rows : Int) else r1
  let c1 := if column < 1 then 1 else column
  let c2 := if c1 > (s.total_columns : Int) then (s.total_columns : Int) else c1
  { s with virtual_row := r2, virtual_column := c2 }

-- ===================== refresh (POSIX diff loop) =====================

/-- One iteration of the scr::refresh double loop at zero-based cell
(rc.1, rc.2): skip the cell if virtual and physical images agree on both
bytes; otherwise reposition the tracked physical cursor if it is not
already at the cell, write both bytes into the physical image, and
advance the physical column. -/
def refresh_cell (s : ScrState) (rc : Nat × Nat) : ScrState :=
  let idx := rc.1 * (2 * s.total_columns) + 2 * rc.2
  if s.screen_image idx = s.physical_image idx ∧
      s.screen_image (idx + 1) = s.physical_image (idx + 1) then s
  else
    let s1 :=
      if ((rc.1 + 1 : Nat) : Int) = s.physical_row ∧
          ((rc.2 + 1 : Nat) : Int) = s.physical_column then s
      else { s with physical_row := ((rc.1 + 1 : Nat) : Int),
                    physical_column := ((rc.2 + 1 : Nat) : Int) }
    { s1 with
      physical_column := s1.physical_column + 1,
      physical_image := setByte (setByte s1.physical_image idx (s.screen_image idx))
        (idx + 1) (s.screen_image (idx + 1)) }

/-- All zero-based cells of a tr-by-tc screen in the row-major scan
order of the refresh loop. -/
def cellList (tr tc : Nat) : List (Nat × Nat) :=
  match tr with
  | 0 => []
  | n + 1 => cellList n tc ++ (List.range tc).map (fun c => (n, c))

/-- scr::refresh (POSIX): run the diff loop over every cell, then move
the physical cursor to the virtual cursor. -/
def refresh (s : ScrState) : ScrState :=
  let s1 := (cellList s.total_rows s.total_columns).foldl refresh_cell s
  { s1 with physical_row := s1.virtual_row, physical_column := s1.virtual_column }

-- ===================== Mutation sequences =====================

/-- One ScreenBuffer mutation call, for quantifying over arbitrary call
sequences. -/
inductive Mutation where
  | mwrite (row column width height : Int) (buffer : Nat → Nat)
  | mwrite_text (row column width height : Int) (buffer : Nat → Nat)
  | mprint (row column : Int) (count : Nat) (attr : Nat) (text : List Nat)
  | mprint_text (row column : Int) (count : Nat) (text : List Nat)
  | mclear (row column width height : Int) (attr : Nat)
  | mset_color (row column width height : Int) (attr : Nat)
  | mscroll (dir : direction_t) (row column width height number_of_rows : Int) (attr : Nat)

/-- Apply one mutation to the state. -/
def apply_mutation (s : ScrState) (m : Mutation) : ScrState :=
  match m with
  | .mwrite r c w h b => write s r c w h b
  | .mwrite_text r c w h b => write_text s r c w h b
  | .mprint r c n a t => print s r c n a t
  | .mprint_text r c n t => print_text s r c n t
  | .mclear r c w h a => clear s r c w h a
  | .mset_color r c w h a => set_color s r c w h a
  | .mscroll d r c w h n a => scroll s d r c w h n a

/-- Run a sequence of mutations. -/
def run (s : ScrState) (ms : List Mutation) : ScrState :=
  ms.foldl apply_mutation s

-- ===================== Cell accessors =====================

/-- Character byte of the virtual image at 1-indexed (row, col). -/
def charAt (s : ScrState) (row col : Nat) : Nat :=
  s.screen_image ((row - 1) * (2 * s.total_columns) + 2 * (col - 1))

/-- Attribute byte of the virtual image at 1-indexed (row, col). -/
def attrAt (s : ScrState) (row col : Nat) : Nat :=
  s.screen_image ((row - 1) * (2 * s.total_columns) + 2 * (col - 1) + 1)

/-- Character byte of the physical image at 1-indexed (row, col). -/
def physCharAt (s : ScrState) (row col : Nat) : Nat :=
  s.physical_image ((row - 1) * (2 * s.total_columns) + 2 * (col - 1))

/-- Attribute byte of the physical image at 1-indexed (row, col). -/
def physAttrAt (s : ScrState) (row col : Nat) : Nat :=
  s.physical_image ((row - 1) * (2 * s.total_columns) + 2 * (col - 1) + 1)

-- ===================== Lifecycle (initialize / terminate) =====================

/-- Lifecycle state of the library: the value of initialize_counter,
whether the screen images are currently allocated (screen_image not
null), and how many times the images have been freed (delete[] runs). -/
structure Session where
  counter : Nat
  allocated : Bool
  frees : Nat

/-- scr::initialize: if already initialized just bump the counter;
otherwise set up the terminal, allocate the images, clear the screen and
bump the counter. -/
def init_session (st : Session) : Session :=
  if st.counter > 0 then { st with counter := st.counter + 1 }
  else { st with counter := st.counter + 1, allocated := true }

/-- scr::terminate: no-op when the counter is zero; otherwise decrement,
and only when the counter reaches zero tear down and free the images. -/
def term_session (st : Session) : Session :=
  if st.counter = 0 then st
  else if st.counter - 1 ≠ 0 then { st with counter := st.counter - 1 }
  else { counter := 0, allocated := false, frees := st.frees + 1 }

-- ===================== Helper lemmas on clamping =====================

theorem adjust_bounds (tr tc r c w h : Int) (htr : 1 ≤ tr) (htc : 1 ≤ tc) :
    1 ≤ (adjust_dimensions tr tc r c w h).1 ∧
    (adjust_dimensions tr tc r c w h).1 ≤ tr ∧
    1 ≤ (adjust_dimensions tr tc r c w h).2.1 ∧
    (adjust_dimensions tr tc r c w h).2.1 ≤ tc ∧
    1 ≤ (adjust_dimensions tr tc r c w h).2.2.1 ∧
    1 ≤ (adjust_dimensions tr tc r c w h).2.2.2 ∧
    (adjust_dimensions tr tc r c w h).1 + (adjust_dimensions tr tc r c w h).2.2.2 - 1 ≤ tr ∧
    (adjust_dimensions tr tc r c w h).2.1 + (adjust_dimensions tr tc r c w h).2.2.1 - 1 ≤ tc := by
  simp only [adjust_dimensions]
  split_ifs <;> omega

theorem adjust_fixed (tr tc r c w h : Int) (h1 : 1 ≤ r) (h2 : r ≤ tr) (h3 : 1 ≤ c)
    (h4 : c ≤ tc) (h5 : 1 ≤ w) (h6 : 1 ≤ h) (h7 : r + h - 1 ≤ tr) (h8 : c + w - 1 ≤ tc) :
    adjust_dimensions tr tc r c w h = (r, c, w, h) := by
  simp only [adjust_dimensions, Prod.mk.injEq]
  split_ifs <;> omega

-- ===================== Claim theorems: C5, C6, C7, C8 =====================

/-- Claim C5: for every screen geometry at least 1 by 1 and every four
integer region parameters, adjust_dimensions is idempotent and its
result satisfies the region bounds invariant. -/
theorem adjust_dimensions_spec (tr tc r c w h : Int) (htr : 1 ≤ tr) (htc : 1 ≤ tc) :
    adjust_dimensions tr tc
        (adjust_dimensions tr tc r c w h).1
        (adjust_dimensions tr tc r c w h).2.1
        (adjust_dimensions tr tc r c w h).2.2.1
        (adjust_dimensions tr tc r c w h).2.2.2 = adjust_dimensions tr tc r c w h ∧
    1 ≤ (adjust_dimensions tr tc r c w h).1 ∧
    (adjust_dimensions tr tc r c w h).1 ≤ tr ∧
    1 ≤ (adjust_dimensions tr tc r c w h).2.1 ∧
    (adjust_dimensions tr tc r c w h).2.1 ≤ tc ∧
    1 ≤ (adjust_dimensions tr tc r c w h).2.2.1 ∧
    1 ≤ (adjust_dimensions tr tc r c w h).2.2.2 ∧
    (adjust_dimensions tr tc r c w h).1 + (adjust_dimensions tr tc r c w h).2.2.2 - 1 ≤ tr ∧
    (adjust_dimensions tr tc r c w h).2.1 + (adjust_dimensions tr tc r c w h).2.2.1 - 1 ≤ tc := by
  obtain ⟨b1, b2, b3, b4, b5, b6, b7, b8⟩ := adjust_bounds tr tc r c w h htr htc
  refine ⟨?_, b1, b2, b3, b4, b5, b6, b7, b8⟩
  rw [adjust_fixed tr tc _ _ _ _ b1 b2 b3 b4 b5 b6 b7 b8]

theorem adjust_dimensions_spec_witness :
    (1 : Int) ≤ 24 ∧ (1 : Int) ≤ 80 ∧
    (adjust_dimensions 24 80
        (adjust_dimensions 24 80 (-3) 100 0 99).1
        (adjust_dimensions 24 80 (-3) 100 0 99).2.1
        (adjust_dimensions 24 80 (-3) 100 0 99).2.2.1
        (adjust_dimensions 24 80 (-3) 100 0 99).2.2.2 = adjust_dimensions 24 80 (-3) 100 0 99 ∧
    1 ≤ (adjust_dimensions 24 80 (-3) 100 0 99).1 ∧
    (adjust_dimensions 24 80 (-3) 100 0 99).1 ≤ 24 ∧
    1 ≤ (adjust_dimensions 24 80 (-3) 100 0 99).2.1 ∧
    (adjust_dimensions 24 80 (-3) 100 0 99).2.1 ≤ 80 ∧
    1 ≤ (adjust_dimensions 24 80 (-3) 100 0 99).2.2.1 ∧
    1 ≤ (adjust_dimensions 24 80 (-3) 100 0 99).2.2.2 ∧
    (adjust_dimensions 24 80 (-3) 100 0 99).1 +
        (adjust_dimensions 24 80 (-3) 100 0 99).2.2.2 - 1 ≤ 24 ∧
    (adjust_dimensions 24 80 (-3) 100 0 99).2.1 +
        (adjust_dimensions 24 80 (-3) 100 0 99).2.2.1 - 1 ≤ 80) :=
  ⟨by decide, by decide, adjust_dimensions_spec 24 80 (-3) 100 0 99 (by decide) (by decide)⟩

/-- Claim C6: reverse_attribute is an involution on 8-bit attributes; it
swaps the foreground field (mask 0x07) with the background field
(mask 0x70) and fixes the blink bit (0x80) and bright bit (0x08). -/
theorem reverse_attribute_spec : ∀ a : Fin 256,
    reverse_attribute (reverse_attribute a.val) = a.val ∧
    reverse_attribute a.val &&& 0x07 = (a.val &&& 0x70) >>> 4 ∧
    reverse_attribute a.val &&& 0x70 = (a.val &&& 0x07) <<< 4 ∧
    reverse_attribute a.val &&& 0x80 = a.val &&& 0x80 ∧
    reverse_attribute a.val &&& 0x08 = a.val &&& 0x08 := by
  decide

/-- Claim C7: convert_attribute is the identity when color works; on a
monochrome backend a black background forces a white foreground, any
other background forces reverse video with a cleared foreground, and
blink/bright are preserved; in particular 0x20 maps to 0x70 and 0x00
maps to 0x07. -/
theorem convert_attribute_spec : ∀ a : Fin 256,
    convert_attribute true a.val = a.val ∧
    (a.val &&& 0x70 = 0 →
      convert_attribute false a.val &&& 0x07 = 0x07 ∧
      convert_attribute false a.val &&& 0x80 = a.val &&& 0x80 ∧
      convert_attribute false a.val &&& 0x08 = a.val &&& 0x08) ∧
    (a.val &&& 0x70 ≠ 0 →
      convert_attribute false a.val &&& 0x70 = 0x70 ∧
      convert_attribute false a.val &&& 0x07 = 0 ∧
      convert_attribute false a.val &&& 0x80 = a.val &&& 0x80 ∧
      convert_attribute false a.val &&& 0x08 = a.val &&& 0x08) ∧
    convert_attribute false 0x20 = 0x70 ∧
    convert_attribute false 0x00 = 0x07 := by
  decide

/-- Claim C8 counterexample: the glyph table has seven entries while
NO_BORDER has ordinal seven, so the default-mode lookup for NO_BORDER
is out of bounds (the modelled access yields none). -/
theorem get_box_characters_no_border_oob :
    box_definitions.length = 7 ∧ BoxType.NO_BORDER.toNat = 7 ∧
    get_box_characters false BoxType.NO_BORDER = none := by
  decide

/-- Claim C8 (amended): for the seven enumerators other than NO_BORDER
the default-mode lookup is in bounds and returns the table entry at the
type's ordinal; SINGLE_LINE yields the documented glyph codes; in
ASCII-only mode every style except BLANK_BOX yields the same glyph set
as requesting ASCII directly. -/
theorem get_box_characters_spec :
    (∀ t : BoxType, t ≠ BoxType.NO_BORDER →
      get_box_characters false t = box_definitions.get? t.toNat ∧
      (box_definitions.get? t.toNat).isSome) ∧
    get_box_characters false BoxType.SINGLE_LINE =
      some ⟨196, 179, 218, 191, 192, 217, 180, 195, 193, 194, 197⟩ ∧
    (∀ u : BoxType, u ≠ BoxType.BLANK_BOX →
      get_box_characters true u = get_box_characters false BoxType.ASCII) := by
  decide

/-- Claim C9: initialize(); initialize(); terminate(); leaves the session
Active with counter 1 and the images allocated and not yet freed; a
second terminate() reaches Inactive and frees the images exactly once;
terminate() while Inactive is a no-op. -/
theorem lifecycle_spec :
    (term_session (init_session (init_session ⟨0, false, 0⟩))).counter = 1 ∧
    (term_session (init_session (init_session ⟨0, false, 0⟩))).allocated = true ∧
    (term_session (init_session (init_session ⟨0, false, 0⟩))).frees = 0 ∧
    (term_session (term_session (init_session (init_session ⟨0, false, 0⟩)))).counter = 0 ∧
    (term_session (term_session (init_session (init_session ⟨0, false, 0⟩)))).allocated = false ∧
    (term_session (term_session (init_session (init_session ⟨0, false, 0⟩)))).frees = 1 ∧
    (∀ st : Session, st.counter = 0 → term_session st = st) := by
  refine ⟨rfl, rfl, rfl, rfl, rfl, rfl, ?_⟩
  intro st h
  simp [term_session, h]

-- ===================== Byte store lemmas =====================

theorem setByte_eq (img : Nat → Nat) (j v : Nat) : setByte img j v j = v := by
  simp [setByte]

theorem setByte_ne (img : Nat → Nat) (j v i : Nat) (h : i ≠ j) : setByte img j v i = img i := by
  simp [setByte, h]

theorem memcpy_in (dst src : Nat → Nat) (o so len i : Nat) (h1 : o ≤ i) (h2 : i < o + len) :
    memcpy dst o src so len i = src (so + (i - o)) := by
  unfold memcpy
  rw [if_pos ⟨h1, h2⟩]

theorem memcpy_out (dst src : Nat → Nat) (o so len i : Nat) (h : ¬(o ≤ i ∧ i < o + len)) :
    memcpy dst o src so len i = dst i := by
  unfold memcpy
  rw [if_neg h]

theorem row_window_lt (base S j r1 r2 : Nat) (hj : j < S) (hr : r1 < r2) :
    base + r1 * S + j < base + r2 * S := by
  have h2 : (r1 + 1) * S ≤ r2 * S := Nat.mul_le_mul_right S hr
  have h3 : (r1 + 1) * S = r1 * S + S := Nat.succ_mul r1 S
  omega

theorem row_le_mul (S r1 r2 : Nat) (hr : r1 ≤ r2) : r1 * S ≤ r2 * S :=
  Nat.mul_le_mul_right S hr

-- ===================== copy_rows lemmas =====================

theorem copy_rows_succ (img src : Nat → Nat) (dB dS sB sS len n : Nat) :
    copy_rows img src dB dS sB sS len (n + 1) =
      memcpy (copy_rows img src dB dS sB sS len n) (dB + n * dS) src (sB + n * sS) len := by
  unfold copy_rows
  rw [List.range_succ, List.foldl_append]
  rfl

theorem copy_rows_untouched (img src : Nat → Nat) (dB dS sB sS len m i : Nat)
    (h : ∀ k, k < m → ¬(dB + k * dS ≤ i ∧ i < dB + k * dS + len)) :
    copy_rows img src dB dS sB sS len m i = img i := by
  induction m with
  | zero => rfl
  | succ n ih =>
    rw [copy_rows_succ, memcpy_out _ _ _ _ _ _ (h n (Nat.lt_succ_self n))]
    exact ih (fun k hk => h k (Nat.lt_succ_of_lt hk))

theorem copy_rows_read (img src : Nat → Nat) (dB dS sB sS len m : Nat) (hlen : len ≤ dS)
    (k j : Nat) (hk : k < m) (hj : j < len) :
    copy_rows img src dB dS sB sS len m (dB + k * dS + j) = src (sB + k * sS + j) := by
  induction m with
  | zero => omega
  | succ n ih =>
    rw [copy_rows_succ]
    rcases Nat.lt_succ_iff_lt_or_eq.mp hk with h | h
    · rw [memcpy_out]
      · exact ih h
      · have := row_window_lt dB dS j k n (lt_of_lt_of_le hj hlen) h
        omega
    · subst h
      rw [memcpy_in _ _ _ _ _ _ (by omega) (by omega)]
      congr 1
      omega

-- ===================== Claim C3: write/read round trip =====================

/-- Claim C3: for a region unchanged by clamping and a caller buffer of
size 2 * width * height, write followed by read returns the written
bytes unchanged, attribute bytes included. -/
theorem write_read_roundtrip (s : ScrState) (row column width height : Int)
    (B B2 : Nat → Nat) (htr : 1 ≤ s.total_rows) (htc : 1 ≤ s.total_columns)
    (hfix : adjust_dimensions (s.total_rows : Int) (s.total_columns : Int) row column width height
      = (row, column, width, height))
    (i : Nat) (hi : i < 2 * width.toNat * height.toNat) :
    read (write s row column width height B) row column width height B2 i = B i := by
  have hb := adjust_bounds (s.total_rows : Int) (s.total_columns : Int) row column width height
    (by exact_mod_cast htr) (by exact_mod_cast htc)
  rw [hfix] at hb
  obtain ⟨b1, b2, b3, b4, b5, b6, b7, b8⟩ := hb
  simp only at b1 b2 b3 b4 b5 b6 b7 b8
  have g1 : (write s row column width height B).total_rows = s.total_rows := rfl
  have g2 : (write s row column width height B).total_columns = s.total_columns := rfl
  have hw : (write s row column width height B).screen_image =
      copy_rows s.screen_image B (regionBase s row column) (2 * s.total_columns) 0
        (2 * width.toNat) (2 * width.toNat) height.toNat := by
    simp only [write, hfix]
  have hr : read (write s row column width height B) row column width height B2 =
      copy_rows B2 (write s row column width height B).screen_image 0 (2 * width.toNat)
        (regionBase s row column) (2 * s.total_columns) (2 * width.toNat) height.toNat := by
    simp only [read, g1, g2, hfix]
    rfl
  set L := 2 * width.toNat with hL
  set W := width.toNat with hW
  set H := height.toNat with hH
  have hLpos : 0 < L := by omega
  have hWtc : W ≤ s.total_columns := by omega
  set k := i / L with hk
  set j := i % L with hj
  have hdm : L * k + j = i := Nat.div_add_mod i L
  have hjL : j < L := Nat.mod_lt i hLpos
  have hkH : k < H := by
    have : i < L * H := by
      have : 2 * W * H = L * H := by rw [hL]
      omega
    by_contra hc
    push_neg at hc
    have : L * H ≤ L * k := Nat.mul_le_mul_left L hc
    omega
  have hcomm : L * k = k * L := Nat.mul_comm L k
  have hidx : i = 0 + k * L + j := by omega
  rw [hr, hidx, copy_rows_read B2 _ 0 L (regionBase s row column) (2 * s.total_columns) L H
    (le_refl L) k j hkH hjL, hw]
  have hlen2 : L ≤ 2 * s.total_columns := by omega
  rw [copy_rows_read s.screen_image B (regionBase s row column) (2 * s.total_columns) 0 L L H
    hlen2 k j hkH hjL]

theorem write_read_roundtrip_witness :
    1 ≤ (2 : Nat) ∧ 1 ≤ (3 : Nat) ∧
    adjust_dimensions ((2 : Nat) : Int) ((3 : Nat) : Int) 1 2 2 2 = (1, 2, 2, 2) ∧
    (5 : Nat) < 2 * (2 : Int).toNat * (2 : Int).toNat ∧
    read (write ⟨2, 3, true, fun _ => 32, fun _ => 32, 1, 1, 1, 1⟩ 1 2 2 2 (fun i => i + 10))
      1 2 2 2 (fun _ => 0) 5 = (fun i => i + 10 : Nat → Nat) 5 :=
  ⟨by decide, by decide, by decide, by decide,
    write_read_roundtrip ⟨2, 3, true, fun _ => 32, fun _ => 32, 1, 1, 1, 1⟩ 1 2 2 2
      (fun i => i + 10) (fun _ => 0) (by decide) (by decide) (by decide) 5 (by decide)⟩

-- ===================== Geometry preservation =====================

theorem scroll_geometry (s : ScrState) (d : direction_t) (r c w h n : Int) (a : Nat) :
    (scroll s d r c w h n a).total_rows = s.total_rows ∧
    (scroll s d r c w h n a).total_columns = s.total_columns := by
  cases d <;>
    (simp only [scroll]
     constructor <;> (split <;> (try split) <;> rfl))

theorem apply_mutation_geometry (s : ScrState) (m : Mutation) :
    (apply_mutation s m).total_rows = s.total_rows ∧
    (apply_mutation s m).total_columns = s.total_columns := by
  cases m with
  | mscroll d r c w h n a => exact scroll_geometry s d r c w h n a
  | _ => exact ⟨rfl, rfl⟩

theorem run_geometry (ms : List Mutation) : ∀ s : ScrState,
    (run s ms).total_rows = s.total_rows ∧ (run s ms).total_columns = s.total_columns := by
  induction ms with
  | nil => intro s; exact ⟨rfl, rfl⟩
  | cons m ms' ih =>
    intro s
    have h1 := ih (apply_mutation s m)
    have h2 := apply_mutation_geometry s m
    exact ⟨by rw [run, List.foldl_cons, ← run, h1.1, h2.1],
           by rw [run, List.foldl_cons, ← run, h1.2, h2.2]⟩

-- ===================== refresh lemmas =====================

theorem refresh_cell_tc (s : ScrState) (rc : Nat × Nat) :
    (refresh_cell s rc).total_columns = s.total_columns := by
  simp only [refresh_cell]
  split
  · rfl
  · split <;> rfl

theorem refresh_cell_screen (s : ScrState) (rc : Nat × Nat) :
    (refresh_cell s rc).screen_image = s.screen_image := by
  simp only [refresh_cell]
  split
  · rfl
  · split <;> rfl

theorem refresh_cell_mono (s : ScrState) (rc : Nat × Nat) (j : Nat)
    (h : s.physical_image j = s.screen_image j) :
    (refresh_cell s rc).physical_image j = s.screen_image j := by
  simp only [refresh_cell]
  split
  · exact h
  · split
    all_goals
      dsimp only
      by_cases h2 : j = rc.1 * (2 * s.total_columns) + 2 * rc.2 + 1
      · subst h2; rw [setByte_eq]
      · rw [setByte_ne _ _ _ _ h2]
        by_cases h3 : j = rc.1 * (2 * s.total_columns) + 2 * rc.2
        · subst h3; rw [setByte_eq]
        · rw [setByte_ne _ _ _ _ h3]; exact h

theorem refresh_cell_covers (s : ScrState) (rc : Nat × Nat) :
    (refresh_cell s rc).physical_image (rc.1 * (2 * s.total_columns) + 2 * rc.2) =
      s.screen_image (rc.1 * (2 * s.total_columns) + 2 * rc.2) ∧
    (refresh_cell s rc).physical_image (rc.1 * (2 * s.total_columns) + 2 * rc.2 + 1) =
      s.screen_image (rc.1 * (2 * s.total_columns) + 2 * rc.2 + 1) := by
  simp only [refresh_cell]
  split
  · rename_i hcond
    exact ⟨hcond.1.symm, hcond.2.symm⟩
  · split <;>
      exact ⟨by dsimp only; rw [setByte_ne _ _ _ _ (by omega), setByte_eq],
             by dsimp only; rw [setByte_eq]⟩

theorem foldl_refresh_tc (l : List (Nat × Nat)) : ∀ s : ScrState,
    (l.foldl refresh_cell s).total_columns = s.total_columns := by
  induction l with
  | nil => intro s; rfl
  | cons a l' ih =>
    intro s
    rw [List.foldl_cons, ih (refresh_cell s a), refresh_cell_tc]

theorem foldl_refresh_screen (l : List (Nat × Nat)) : ∀ s : ScrState,
    (l.foldl refresh_cell s).screen_image = s.screen_image := by
  induction l with
  | nil => intro s; rfl
  | cons a l' ih =>
    intro s
    rw [List.foldl_cons, ih (refresh_cell s a), refresh_cell_screen]

theorem foldl_refresh_mono (l : List (Nat × Nat)) : ∀ (s : ScrState) (j : Nat),
    s.physical_image j = s.screen_image j →
    (l.foldl refresh_cell s).physical_image j = (l.foldl refresh_cell s).screen_image j := by
  induction l with
  | nil => intro s j h; exact h
  | cons a l' ih =>
    intro s j h
    rw [List.foldl_cons]
    apply ih
    rw [refresh_cell_screen]
    exact refresh_cell_mono s a j h

theorem foldl_refresh_covers (l : List (Nat × Nat)) : ∀ (s : ScrState) (rc : Nat × Nat),
    rc ∈ l →
    (l.foldl refresh_cell s).physical_image (rc.1 * (2 * s.total_columns) + 2 * rc.2) =
      (l.foldl refresh_cell s).screen_image (rc.1 * (2 * s.total_columns) + 2 * rc.2) ∧
    (l.foldl refresh_cell s).physical_image (rc.1 * (2 * s.total_columns) + 2 * rc.2 + 1) =
      (l.foldl refresh_cell s).screen_image (rc.1 * (2 * s.total_columns) + 2 * rc.2 + 1) := by
  induction l with
  | nil => intro s rc h; cases h
  | cons a l' ih =>
    intro s rc hmem
    rw [List.foldl_cons]
    rcases List.mem_cons.mp hmem with he | hm
    · subst he
      constructor
      · apply foldl_refresh_mono
        rw [refresh_cell_screen]
        exact (refresh_cell_covers s rc).1
      · apply foldl_refresh_mono
        rw [refresh_cell_screen]
        exact (refresh_cell_covers s rc).2
    · have h2 := ih (refresh_cell s a) rc hm
      rw [refresh_cell_tc] at h2
      exact h2

theorem mem_cellList (tr tc r c : Nat) : (r, c) ∈ cellList tr tc ↔ r < tr ∧ c < tc := by
  induction tr with
  | zero => simp [cellList]
  | succ n ih =>
    simp only [cellList, List.mem_append, List.mem_map, List.mem_range, ih, Prod.mk.injEq]
    constructor
    · rintro (⟨hl1, hl2⟩ | ⟨x, hx, he1, he2⟩)
      · omega
      · omega
    · rintro ⟨hl1, hl2⟩
      rcases Nat.lt_succ_iff_lt_or_eq.mp hl1 with hcase | hcase
      · exact Or.inl ⟨hcase, hl2⟩
      · exact Or.inr ⟨c, hl2, hcase.symm, rfl⟩

-- ===================== Claim C1: refresh synchronizes the images =====================

/-- Claim C1: after any sequence of ScreenBuffer mutations followed by
one refresh, every cell of the physical image equals the corresponding
cell of the virtual image, character byte and attribute byte both. -/
theorem refresh_sync (s : ScrState) (ms : List Mutation) (row col : Nat)
    (h1 : 1 ≤ row) (h2 : row ≤ s.total_rows) (h3 : 1 ≤ col) (h4 : col ≤ s.total_columns) :
    physCharAt (refresh (run s ms)) row col = charAt (refresh (run s ms)) row col ∧
    physAttrAt (refresh (run s ms)) row col = attrAt (refresh (run s ms)) row col := by
  have g := run_geometry ms s
  have hmem : ((row - 1 : Nat), (col - 1 : Nat)) ∈
      cellList (run s ms).total_rows (run s ms).total_columns := by
    rw [mem_cellList]
    omega
  have hcov := foldl_refresh_covers
    (cellList (run s ms).total_rows (run s ms).total_columns) (run s ms)
    ((row - 1 : Nat), (col - 1 : Nat)) hmem
  have e3 : (refresh (run s ms)).total_columns = (run s ms).total_columns :=
    foldl_refresh_tc (cellList (run s ms).total_rows (run s ms).total_columns) (run s ms)
  simp only [physCharAt, charAt, physAttrAt, attrAt, e3]
  exact hcov

theorem refresh_sync_witness :
    1 ≤ (1 : Nat) ∧
    (1 : Nat) ≤ (ScrState.mk 2 2 true (fun _ => 32) (fun _ => 32) 1 1 1 1).total_rows ∧
    1 ≤ (2 : Nat) ∧
    (2 : Nat) ≤ (ScrState.mk 2 2 true (fun _ => 32) (fun _ => 32) 1 1 1 1).total_columns ∧
    (physCharAt
        (refresh (run (ScrState.mk 2 2 true (fun _ => 32) (fun _ => 32) 1 1 1 1)
          [Mutation.mclear 1 1 2 2 7, Mutation.mprint 1 1 2 7 [65, 66]])) 1 2 =
      charAt
        (refresh (run (ScrState.mk 2 2 true (fun _ => 32) (fun _ => 32) 1 1 1 1)
          [Mutation.mclear 1 1 2 2 7, Mutation.mprint 1 1 2 7 [65, 66]])) 1 2 ∧
    physAttrAt
        (refresh (run (ScrState.mk 2 2 true (fun _ => 32) (fun _ => 32) 1 1 1 1)
          [Mutation.mclear 1 1 2 2 7, Mutation.mprint 1 1 2 7 [65, 66]])) 1 2 =
      attrAt
        (refresh (run (ScrState.mk 2 2 true (fun _ => 32) (fun _ => 32) 1 1 1 1)
          [Mutation.mclear 1 1 2 2 7, Mutation.mprint 1 1 2 7 [65, 66]])) 1 2) :=
  ⟨by decide, by decide, by decide, by decide,
    refresh_sync (ScrState.mk 2 2 true (fun _ => 32) (fun _ => 32) 1 1 1 1)
      [Mutation.mclear 1 1 2 2 7, Mutation.mprint 1 1 2 7 [65, 66]] 1 2
      (by decide) (by decide) (by decide) (by decide)⟩

-- ===================== print loop lemmas =====================

theorem convert_attribute_lt (cw : Bool) : ∀ a : Fin 256, convert_attribute cw a.val < 256 := by
  cases cw <;> decide

theorem convert_attribute_mod (cw : Bool) (a : Nat) (h : a < 256) :
    convert_attribute cw a % 256 = convert_attribute cw a :=
  Nat.mod_eq_of_lt (convert_attribute_lt cw ⟨a, h⟩)

theorem adjust_w_le (tr tc r c w h : Int) :
    (adjust_dimensions tr tc r c w h).2.2.1 ≤ max w 1 := by
  simp only [adjust_dimensions]
  split_ifs <;> omega

theorem print_loop_untouched (a j : Nat) : ∀ (text : List Nat) (img : Nat → Nat) (off w : Nat),
    (∀ i, i < min (text.takeWhile (fun ch => ch ≠ 0)).length w →
      j ≠ off + 2 * i ∧ j ≠ off + 2 * i + 1) →
    print_loop img off w text a j = img j := by
  intro text
  induction text with
  | nil => intro img off w _; rw [print_loop]
  | cons ch rest ih =>
    intro img off w h
    cases w with
    | zero => rw [print_loop]; split <;> rfl
    | succ w' =>
      by_cases hch : ch = 0
      · rw [print_loop]; simp [hch]
      · have hstep : print_loop img off (w' + 1) (ch :: rest) a =
            print_loop (setByte (setByte img off ch) (off + 1) (a % 256)) (off + 2) w' rest a := by
          rw [print_loop]; simp [hch]
        rw [hstep]
        have hmin : min ((ch :: rest).takeWhile (fun c0 => c0 ≠ 0)).length (w' + 1) =
            min (rest.takeWhile (fun c0 => c0 ≠ 0)).length w' + 1 := by
          simp [List.takeWhile_cons, hch, Nat.succ_min_succ]
        have h0 := h 0 (by omega)
        rw [ih (setByte (setByte img off ch) (off + 1) (a % 256)) (off + 2) w'
          (fun i hi => by
            have := h (i + 1) (by omega)
            constructor <;> omega)]
        rw [setByte_ne _ _ _ _ (by omega), setByte_ne _ _ _ _ (by omega)]

theorem print_loop_char (a : Nat) : ∀ (text : List Nat) (img : Nat → Nat) (off w i : Nat),
    i < min (text.takeWhile (fun ch => ch ≠ 0)).length w →
    print_loop img off w text a (off + 2 * i) = (text.takeWhile (fun ch => ch ≠ 0)).getD i 0 := by
  intro text
  induction text with
  | nil => intro img off w i hi; simp at hi
  | cons ch rest ih =>
    intro img off w i hi
    cases w with
    | zero => simp at hi
    | succ w' =>
      by_cases hch : ch = 0
      · exfalso
        simp [List.takeWhile_cons, hch] at hi
      · have hstep : print_loop img off (w' + 1) (ch :: rest) a =
            print_loop (setByte (setByte img off ch) (off + 1) (a % 256)) (off + 2) w' rest a := by
          rw [print_loop]; simp [hch]
        have htw : (ch :: rest).takeWhile (fun c0 => c0 ≠ 0) =
            ch :: rest.takeWhile (fun c0 => c0 ≠ 0) := by
          simp [List.takeWhile_cons, hch]
        rw [hstep, htw]
        rw [htw] at hi
        cases i with
        | zero =>
          rw [print_loop_untouched a (off + 2 * 0) rest _ (off + 2) w'
            (fun i2 hi2 => ⟨by omega, by omega⟩)]
          have e : off + 2 * 0 = off := by omega
          rw [e, setByte_ne _ _ _ _ (by omega), setByte_eq]
          rfl
        | succ i' =>
          have e : off + 2 * (i' + 1) = (off + 2) + 2 * i' := by omega
          rw [e, ih (setByte (setByte img off ch) (off + 1) (a % 256)) (off + 2) w' i'
            (by rw [List.length_cons, Nat.succ_min_succ] at hi; omega)]
          rfl

theorem print_loop_attr (a : Nat) : ∀ (text : List Nat) (img : Nat → Nat) (off w i : Nat),
    i < min (text.takeWhile (fun ch => ch ≠ 0)).length w →
    print_loop img off w text a (off + 2 * i + 1) = a % 256 := by
  intro text
  induction text with
  | nil => intro img off w i hi; simp at hi
  | cons ch rest ih =>
    intro img off w i hi
    cases w with
    | zero => simp at hi
    | succ w' =>
      by_cases hch : ch = 0
      · exfalso
        simp [List.takeWhile_cons, hch] at hi
      · have hstep : print_loop img off (w' + 1) (ch :: rest) a =
            print_loop (setByte (setByte img off ch) (off + 1) (a % 256)) (off + 2) w' rest a := by
          rw [print_loop]; simp [hch]
        have htw : (ch :: rest).takeWhile (fun c0 => c0 ≠ 0) =
            ch :: rest.takeWhile (fun c0 => c0 ≠ 0) := by
          simp [List.takeWhile_cons, hch]
        rw [hstep]
        rw [htw] at hi
        cases i with
        | zero =>
          rw [print_loop_untouched a (off + 2 * 0 + 1) rest _ (off + 2) w'
            (fun i2 hi2 => ⟨by omega, by omega⟩)]
          have e : off + 2 * 0 + 1 = off + 1 := by omega
          rw [e, setByte_eq]
        | succ i' =>
          have e : off + 2 * (i' + 1) + 1 = (off + 2) + 2 * i' + 1 := by omega
          rw [e, ih (setByte (setByte img off ch) (off + 1) (a % 256)) (off + 2) w' i'
            (by rw [List.length_cons, Nat.succ_min_succ] at hi; omega)]

theorem print_text_loop_untouched (j : Nat) : ∀ (text : List Nat) (img : Nat → Nat) (off w : Nat),
    (∀ i, i < min (text.takeWhile (fun ch => ch ≠ 0)).length w → j ≠ off + 2 * i) →
    print_text_loop img off w text j = img j := by
  intro text
  induction text with
  | nil => intro img off w _; rw [print_text_loop]
  | cons ch rest ih =>
    intro img off w h
    cases w with
    | zero => rw [print_text_loop]; split <;> rfl
    | succ w' =>
      by_cases hch : ch = 0
      · rw [print_text_loop]; simp [hch]
      · have hstep : print_text_loop img off (w' + 1) (ch :: rest) =
            print_text_loop (setByte img off ch) (off + 2) w' rest := by
          rw [print_text_loop]; simp [hch]
        have hmin : min ((ch :: rest).takeWhile (fun c0 => c0 ≠ 0)).length (w' + 1) =
            min (rest.takeWhile (fun c0 => c0 ≠ 0)).length w' + 1 := by
          simp [List.takeWhile_cons, hch, Nat.succ_min_succ]
        have h0 := h 0 (by omega)
        rw [hstep, ih (setByte img off ch) (off + 2) w'
          (fun i hi => by have := h (i + 1) (by omega); omega)]
        rw [setByte_ne _ _ _ _ (by omega)]

-- ===================== Cell index arithmetic =====================

theorem takeWhile_len_le (p : Nat → Bool) : ∀ l : List Nat, (l.takeWhile p).length ≤ l.length := by
  intro l
  induction l with
  | nil => simp
  | cons a l ih =>
    rw [List.takeWhile_cons]
    split
    · simp only [List.length_cons]
      omega
    · simp

theorem flat_index_inj (tc r1 x1 r2 x2 : Nat) (h1 : x1 < 2 * tc) (h2 : x2 < 2 * tc)
    (he : r1 * (2 * tc) + x1 = r2 * (2 * tc) + x2) : r1 = r2 ∧ x1 = x2 := by
  have hr : r1 = r2 := by
    by_contra hno
    rcases Nat.lt_or_ge r1 r2 with hlt | hge
    · have := row_window_lt 0 (2 * tc) x1 r1 r2 h1 hlt
      omega
    · have hgt : r2 < r1 := by omega
      have := row_window_lt 0 (2 * tc) x2 r2 r1 h2 hgt
      omega
  subst hr
  exact ⟨rfl, by omega⟩

theorem cell_outside_window (tc R C nn r' c' : Nat)
    (hR1 : 1 ≤ R) (hC1 : 1 ≤ C) (hr1 : 1 ≤ r') (hc1 : 1 ≤ c') (hc2 : c' ≤ tc)
    (hCW : C + nn ≤ tc + 1) (hout : r' ≠ R ∨ c' < C ∨ C + nn ≤ c') :
    ∀ i, i < nn →
      ((r' - 1) * (2 * tc) + 2 * (c' - 1) ≠ ((R - 1) * (2 * tc) + (C - 1) * 2) + 2 * i ∧
        (r' - 1) * (2 * tc) + 2 * (c' - 1) ≠ ((R - 1) * (2 * tc) + (C - 1) * 2) + 2 * i + 1) ∧
      ((r' - 1) * (2 * tc) + 2 * (c' - 1) + 1 ≠ ((R - 1) * (2 * tc) + (C - 1) * 2) + 2 * i ∧
        (r' - 1) * (2 * tc) + 2 * (c' - 1) + 1 ≠ ((R - 1) * (2 * tc) + (C - 1) * 2) + 2 * i + 1) := by
  intro i hi
  have hx1 : 2 * (c' - 1) < 2 * tc := by omega
  have hx1b : 2 * (c' - 1) + 1 < 2 * tc := by omega
  have hx2 : (C - 1) * 2 + 2 * i < 2 * tc := by omega
  have hx2b : (C - 1) * 2 + 2 * i + 1 < 2 * tc := by omega
  refine ⟨⟨?_, ?_⟩, ?_, ?_⟩ <;> intro heq
  · have hinj := flat_index_inj tc (r' - 1) (2 * (c' - 1)) (R - 1) ((C - 1) * 2 + 2 * i)
      hx1 hx2 (by omega)
    rcases hout with ho | ho | ho <;> omega
  · have hinj := flat_index_inj tc (r' - 1) (2 * (c' - 1)) (R - 1) ((C - 1) * 2 + 2 * i + 1)
      hx1 hx2b (by omega)
    omega
  · have hinj := flat_index_inj tc (r' - 1) (2 * (c' - 1) + 1) (R - 1) ((C - 1) * 2 + 2 * i)
      hx1b hx2 (by omega)
    omega
  · have hinj := flat_index_inj tc (r' - 1) (2 * (c' - 1) + 1) (R - 1) ((C - 1) * 2 + 2 * i + 1)
      hx1b hx2b (by omega)
    rcases hout with ho | ho | ho <;> omega

-- ===================== Claim C4: print =====================

/-- Claim C4 counterexample: with maxCount = 0 print still writes one
cell, because adjust_dimensions raises a non-positive width to 1; so
print does not write at most maxCount cells for every maxCount >= 0. -/
theorem print_count_zero_counterexample :
    charAt (print ⟨2, 2, true, fun _ => 32, fun _ => 32, 1, 1, 1, 1⟩ 1 1 0 7 [65]) 1 1 = 65 ∧
    charAt (⟨2, 2, true, fun _ => 32, fun _ => 32, 1, 1, 1, 1⟩ : ScrState) 1 1 = 32 := by
  constructor
  · rfl
  · rfl

/-- Claim C4 (amended): print writes n = min(textLength, clampedWidth)
cells where n is at most max(maxCount, 1) (a maxCount of 0 is raised to
width 1 by clamping), only into the single clamped row starting at the
clamped column, stopping at the first terminator of the (truncated)
formatted text and at the right screen edge; each written cell gets the
text's character and the converted attribute; all other cells are
unchanged. -/
theorem print_spec (s : ScrState) (row column : Int) (count attr : Nat) (text : List Nat)
    (htr : 1 ≤ s.total_rows) (htc : 1 ≤ s.total_columns) (hattr : attr < 256)
    (R C W n : Nat) (eff : List Nat)
    (hR : R = (adjust_dimensions (s.total_rows : Int) (s.total_columns : Int)
      row column (count : Int) 1).1.toNat)
    (hC : C = (adjust_dimensions (s.total_rows : Int) (s.total_columns : Int)
      row column (count : Int) 1).2.1.toNat)
    (hW : W = (adjust_dimensions (s.total_rows : Int) (s.total_columns : Int)
      row column (count : Int) 1).2.2.1.toNat)
    (heff : eff = (text.take maximum_print_size).takeWhile (fun ch => ch ≠ 0))
    (hn : n = min eff.length W) :
    n ≤ max count 1 ∧
    C + n ≤ s.total_columns + 1 ∧
    (∀ i, i < n →
      charAt (print s row column count attr text) R (C + i) = eff.getD i 0 ∧
      attrAt (print s row column count attr text) R (C + i) =
        convert_attribute s.color_works attr) ∧
    (∀ r' c', 1 ≤ r' → r' ≤ s.total_rows → 1 ≤ c' → c' ≤ s.total_columns →
      (r' ≠ R ∨ c' < C ∨ C + n ≤ c') →
      charAt (print s row column count attr text) r' c' = charAt s r' c' ∧
      attrAt (print s row column count attr text) r' c' = attrAt s r' c') := by
  obtain ⟨b1, b2, b3, b4, b5, b6, b7, b8⟩ :=
    adjust_bounds (s.total_rows : Int) (s.total_columns : Int) row column (count : Int) 1
      (by exact_mod_cast htr) (by exact_mod_cast htc)
  have hwle := adjust_w_le (s.total_rows : Int) (s.total_columns : Int) row column (count : Int) 1
  have hR1 : 1 ≤ R := by omega
  have hRtr : R ≤ s.total_rows := by omega
  have hC1 : 1 ≤ C := by omega
  have hCtc : C ≤ s.total_columns := by omega
  have hW1 : 1 ≤ W := by omega
  have hCW : C + W ≤ s.total_columns + 1 := by omega
  have hnW : n ≤ W := by omega
  have himg : (print s row column count attr text).screen_image =
      print_loop s.screen_image ((R - 1) * (2 * s.total_columns) + (C - 1) * 2) W
        (text.take maximum_print_size) (convert_attribute s.color_works attr) := by
    rw [hR, hC, hW]; rfl
  have gtc : (print s row column count attr text).total_columns = s.total_columns := rfl
  refine ⟨by omega, by omega, ?_, ?_⟩
  · intro i hi
    have hib : i < min ((text.take maximum_print_size).takeWhile (fun ch => ch ≠ 0)).length W := by
      rw [← heff]; omega
    constructor
    · simp only [charAt, gtc, himg]
      have eidx : (R - 1) * (2 * s.total_columns) + 2 * (C + i - 1) =
          ((R - 1) * (2 * s.total_columns) + (C - 1) * 2) + 2 * i := by omega
      rw [eidx, print_loop_char _ _ _ _ _ _ hib, ← heff]
    · simp only [attrAt, gtc, himg]
      have eidx : (R - 1) * (2 * s.total_columns) + 2 * (C + i - 1) + 1 =
          ((R - 1) * (2 * s.total_columns) + (C - 1) * 2) + 2 * i + 1 := by omega
      rw [eidx, print_loop_attr _ _ _ _ _ _ hib,
        convert_attribute_mod s.color_works attr hattr]
  · intro r' c' h1' h2' h3' h4' hout
    have hwin := cell_outside_window s.total_columns R C n r' c' hR1 hC1 h1' h3' h4'
      (by omega) hout
    constructor
    · simp only [charAt, gtc, himg]
      rw [print_loop_untouched]
      intro i hi2
      have := hwin i (by rw [heff] at hn; omega)
      exact this.1
    · simp only [attrAt, gtc, himg]
      rw [print_loop_untouched]
      intro i hi2
      have := hwin i (by rw [heff] at hn; omega)
      exact this.2

theorem print_spec_witness :
    1 ≤ (2 : Nat) ∧ 1 ≤ (3 : Nat) ∧ (7 : Nat) < 256 ∧
    (1 : Nat) = (adjust_dimensions ((2 : Nat) : Int) ((3 : Nat) : Int) 1 2 ((5 : Nat) : Int)
      1).1.toNat ∧
    (2 : Nat) = (adjust_dimensions ((2 : Nat) : Int) ((3 : Nat) : Int) 1 2 ((5 : Nat) : Int)
      1).2.1.toNat ∧
    (2 : Nat) = (adjust_dimensions ((2 : Nat) : Int) ((3 : Nat) : Int) 1 2 ((5 : Nat) : Int)
      1).2.2.1.toNat ∧
    ([65, 66] : List Nat) =
      (([65, 66, 0, 67] : List Nat).take maximum_print_size).takeWhile (fun ch => ch ≠ 0) ∧
    (2 : Nat) = min ([65, 66] : List Nat).length 2 ∧
    ((2 : Nat) ≤ max 5 1 ∧
    2 + 2 ≤ (3 : Nat) + 1 ∧
    (∀ i, i < 2 →
      charAt (print ⟨2, 3, true, fun _ => 32, fun _ => 32, 1, 1, 1, 1⟩ 1 2 5 7
        [65, 66, 0, 67]) 1 (2 + i) = ([65, 66] : List Nat).getD i 0 ∧
      attrAt (print ⟨2, 3, true, fun _ => 32, fun _ => 32, 1, 1, 1, 1⟩ 1 2 5 7
        [65, 66, 0, 67]) 1 (2 + i) = convert_attribute true 7) ∧
    (∀ r' c', 1 ≤ r' → r' ≤ (2 : Nat) → 1 ≤ c' → c' ≤ (3 : Nat) →
      (r' ≠ 1 ∨ c' < 2 ∨ 2 + 2 ≤ c') →
      charAt (print ⟨2, 3, true, fun _ => 32, fun _ => 32, 1, 1, 1, 1⟩ 1 2 5 7
        [65, 66, 0, 67]) r' c' =
        charAt (⟨2, 3, true, fun _ => 32, fun _ => 32, 1, 1, 1, 1⟩ : ScrState) r' c' ∧
      attrAt (print ⟨2, 3, true, fun _ => 32, fun _ => 32, 1, 1, 1, 1⟩ 1 2 5 7
        [65, 66, 0, 67]) r' c' =
        attrAt (⟨2, 3, true, fun _ => 32, fun _ => 32, 1, 1, 1, 1⟩ : ScrState) r' c')) :=
  ⟨by decide, by decide, by decide, by decide, by decide, by decide, by decide, by decide,
    print_spec ⟨2, 3, true, fun _ => 32, fun _ => 32, 1, 1, 1, 1⟩ 1 2 5 7 [65, 66, 0, 67]
      (by decide) (by decide) (by decide) 1 2 2 2 [65, 66]
      (by decide) (by decide) (by decide) (by decide) (by decide)⟩

-- ===================== Claim C10: 1024-character print limit =====================

/-- Claim C10: the formatted text is truncated to maximum_print_size
characters, so neither print nor print_text ever changes a cell outside
the maximum_print_size-cell window starting at the clamped position,
regardless of the count argument. -/
theorem print_size_limit (s : ScrState) (row column : Int) (count attr : Nat) (text : List Nat)
    (htr : 1 ≤ s.total_rows) (htc : 1 ≤ s.total_columns)
    (R C : Nat)
    (hR : R = (adjust_dimensions (s.total_rows : Int) (s.total_columns : Int)
      row column (count : Int) 1).1.toNat)
    (hC : C = (adjust_dimensions (s.total_rows : Int) (s.total_columns : Int)
      row column (count : Int) 1).2.1.toNat)
    (r' c' : Nat) (h1' : 1 ≤ r') (h2' : r' ≤ s.total_rows) (h3' : 1 ≤ c')
    (h4' : c' ≤ s.total_columns)
    (hout : r' ≠ R ∨ c' < C ∨ C + maximum_print_size ≤ c') :
    ((text.take maximum_print_size).takeWhile (fun ch => ch ≠ 0)).length ≤
      maximum_print_size ∧
    charAt (print s row column count attr text) r' c' = charAt s r' c' ∧
    attrAt (print s row column count attr text) r' c' = attrAt s r' c' ∧
    charAt (print_text s row column count text) r' c' = charAt s r' c' ∧
    attrAt (print_text s row column count text) r' c' = attrAt s r' c' := by
  obtain ⟨b1, b2, b3, b4, b5, b6, b7, b8⟩ :=
    adjust_bounds (s.total_rows : Int) (s.total_columns : Int) row column (count : Int) 1
      (by exact_mod_cast htr) (by exact_mod_cast htc)
  have hR1 : 1 ≤ R := by omega
  have hC1 : 1 ≤ C := by omega
  have hCtc : C ≤ s.total_columns := by omega
  set W := (adjust_dimensions (s.total_rows : Int) (s.total_columns : Int)
    row column (count : Int) 1).2.2.1.toNat with hW
  have hW1 : 1 ≤ W := by omega
  have hCW : C + W ≤ s.total_columns + 1 := by omega
  have hlen : ((text.take maximum_print_size).takeWhile (fun ch => ch ≠ 0)).length ≤
      maximum_print_size := by
    have ht1 := takeWhile_len_le (fun ch : Nat => decide (ch ≠ 0)) (text.take maximum_print_size)
    have ht2 : (text.take maximum_print_size).length ≤ maximum_print_size := by
      rw [List.length_take]; omega
    omega
  set n := min ((text.take maximum_print_size).takeWhile (fun ch => ch ≠ 0)).length W with hn
  have hnW : n ≤ W := by omega
  have hwin := cell_outside_window s.total_columns R C n r' c' hR1 hC1 h1' h3' h4'
    (by omega)
    (by
      rcases hout with ho | ho | ho
      · exact Or.inl ho
      · exact Or.inr (Or.inl ho)
      · exact Or.inr (Or.inr (by omega)))
  have himg : (print s row column count attr text).screen_image =
      print_loop s.screen_image ((R - 1) * (2 * s.total_columns) + (C - 1) * 2) W
        (text.take maximum_print_size) (convert_attribute s.color_works attr) := by
    rw [hR, hC, hW]; rfl
  have himg2 : (print_text s row column count text).screen_image =
      print_text_loop s.screen_image ((R - 1) * (2 * s.total_columns) + (C - 1) * 2) W
        (text.take maximum_print_size) := by
    rw [hR, hC, hW]; rfl
  have gtc : (print s row column count attr text).total_columns = s.total_columns := rfl
  have gtc2 : (print_text s row column count text).total_columns = s.total_columns := rfl
  refine ⟨hlen, ?_, ?_, ?_, ?_⟩
  · simp only [charAt, gtc, himg]
    rw [print_loop_untouched]
    intro i hi2
    exact (hwin i (by omega)).1
  · simp only [attrAt, gtc, himg]
    rw [print_loop_untouched]
    intro i hi2
    exact (hwin i (by omega)).2
  · simp only [charAt, gtc2, himg2]
    rw [print_text_loop_untouched]
    intro i hi2
    exact (hwin i (by omega)).1.1
  · simp only [attrAt, gtc2, himg2]
    rw [print_text_loop_untouched]
    intro i hi2
    exact (hwin i (by omega)).2.1

theorem print_size_limit_witness :
    1 ≤ (2 : Nat) ∧ 1 ≤ (3 : Nat) ∧
    (1 : Nat) = (adjust_dimensions ((2 : Nat) : Int) ((3 : Nat) : Int) 1 1 ((9 : Nat) : Int)
      1).1.toNat ∧
    (1 : Nat) = (adjust_dimensions ((2 : Nat) : Int) ((3 : Nat) : Int) 1 1 ((9 : Nat) : Int)
      1).2.1.toNat ∧
    1 ≤ (2 : Nat) ∧ (2 : Nat) ≤ 2 ∧ 1 ≤ (1 : Nat) ∧ (1 : Nat) ≤ 3 ∧
    ((2 : Nat) ≠ 1 ∨ (1 : Nat) < 1 ∨ 1 + maximum_print_size ≤ 1) ∧
    ((([66, 67] : List Nat).take maximum_print_size).takeWhile
        (fun ch => ch ≠ 0)).length ≤ maximum_print_size ∧
    charAt (print ⟨2, 3, true, fun _ => 32, fun _ => 32, 1, 1, 1, 1⟩ 1 1 9 7 [66, 67]) 2 1 =
      charAt (⟨2, 3, true, fun _ => 32, fun _ => 32, 1, 1, 1, 1⟩ : ScrState) 2 1 ∧
    attrAt (print ⟨2, 3, true, fun _ => 32, fun _ => 32, 1, 1, 1, 1⟩ 1 1 9 7 [66, 67]) 2 1 =
      attrAt (⟨2, 3, true, fun _ => 32, fun _ => 32, 1, 1, 1, 1⟩ : ScrState) 2 1 ∧
    charAt (print_text ⟨2, 3, true, fun _ => 32, fun _ => 32, 1, 1, 1, 1⟩ 1 1 9 [66, 67]) 2 1 =
      charAt (⟨2, 3, true, fun _ => 32, fun _ => 32, 1, 1, 1, 1⟩ : ScrState) 2 1 ∧
    attrAt (print_text ⟨2, 3, true, fun _ => 32, fun _ => 32, 1, 1, 1, 1⟩ 1 1 9 [66, 67]) 2 1 =
      attrAt (⟨2, 3, true, fun _ => 32, fun _ => 32, 1, 1, 1, 1⟩ : ScrState) 2 1 :=
  ⟨by decide, by decide, by decide, by decide, by decide, by decide, by decide, by decide,
    by decide,
    (print_size_limit ⟨2, 3, true, fun _ => 32, fun _ => 32, 1, 1, 1, 1⟩ 1 1 9 7 [66, 67]
      (by decide) (by decide) 1 1 (by decide) (by decide) 2 1 (by decide) (by decide)
      (by decide) (by decide) (by decide)).1,
    (print_size_limit ⟨2, 3, true, fun _ => 32, fun _ => 32, 1, 1, 1, 1⟩ 1 1 9 7 [66, 67]
      (by decide) (by decide) 1 1 (by decide) (by decide) 2 1 (by decide) (by decide)
      (by decide) (by decide) (by decide)).2.1,
    (print_size_limit ⟨2, 3, true, fun _ => 32, fun _ => 32, 1, 1, 1, 1⟩ 1 1 9 7 [66, 67]
      (by decide) (by decide) 1 1 (by decide) (by decide) 2 1 (by decide) (by decide)
      (by decide) (by decide) (by decide)).2.2.1,
    (print_size_limit ⟨2, 3, true, fun _ => 32, fun _ => 32, 1, 1, 1, 1⟩ 1 1 9 7 [66, 67]
      (by decide) (by decide) 1 1 (by decide) (by decide) 2 1 (by decide) (by decide)
      (by decide) (by decide) (by decide)).2.2.2.1,
    (print_size_limit ⟨2, 3, true, fun _ => 32, fun _ => 32, 1, 1, 1, 1⟩ 1 1 9 7 [66, 67]
      (by decide) (by decide) 1 1 (by decide) (by decide) 2 1 (by decide) (by decide)
      (by decide) (by decide) (by decide)).2.2.2.2⟩

-- ===================== fill (clear) lemmas =====================

theorem fill_row_succ (img : Nat → Nat) (off w ch a : Nat) :
    fill_row img off (w + 1) ch a =
      setByte (setByte (fill_row img off w ch a) (off + 2 * w) ch) (off + 2 * w + 1) a := by
  unfold fill_row
  rw [List.range_succ, List.foldl_append]
  rfl

theorem fill_row_out (img : Nat → Nat) (off ch a : Nat) : ∀ (w j : Nat),
    (∀ i, i < w → j ≠ off + 2 * i ∧ j ≠ off + 2 * i + 1) →
    fill_row img off w ch a j = img j := by
  intro w
  induction w with
  | zero => intro j _; rfl
  | succ n ih =>
    intro j h
    rw [fill_row_succ, setByte_ne _ _ _ _ (h n (by omega)).2,
      setByte_ne _ _ _ _ (h n (by omega)).1]
    exact ih j (fun i hi => h i (by omega))

theorem fill_row_ch (img : Nat → Nat) (off ch a : Nat) : ∀ (w i : Nat), i < w →
    fill_row img off w ch a (off + 2 * i) = ch := by
  intro w
  induction w with
  | zero => intro i hi; omega
  | succ n ih =>
    intro i hi
    rw [fill_row_succ]
    rcases Nat.lt_succ_iff_lt_or_eq.mp hi with hc | hc
    · rw [setByte_ne _ _ _ _ (by omega), setByte_ne _ _ _ _ (by omega)]
      exact ih i hc
    · subst hc
      rw [setByte_ne _ _ _ _ (by omega), setByte_eq]

theorem fill_row_attr (img : Nat → Nat) (off ch a : Nat) : ∀ (w i : Nat), i < w →
    fill_row img off w ch a (off + 2 * i + 1) = a := by
  intro w
  induction w with
  | zero => intro i hi; omega
  | succ n ih =>
    intro i hi
    rw [fill_row_succ]
    rcases Nat.lt_succ_iff_lt_or_eq.mp hi with hc | hc
    · rw [setByte_ne _ _ _ _ (by omega), setByte_ne _ _ _ _ (by omega)]
      exact ih i hc
    · subst hc
      rw [setByte_eq]

theorem fill_rows_succ (img : Nat → Nat) (base stride w ch a n : Nat) :
    fill_rows img base stride w (n + 1) ch a =
      fill_row (fill_rows img base stride w n ch a) (base + n * stride) w ch a := by
  unfold fill_rows
  rw [List.range_succ, List.foldl_append]
  rfl

theorem fill_rows_out (img : Nat → Nat) (base stride w ch a : Nat) : ∀ (h j : Nat),
    (∀ rr, rr < h → ∀ i, i < w →
      j ≠ (base + rr * stride) + 2 * i ∧ j ≠ (base + rr * stride) + 2 * i + 1) →
    fill_rows img base stride w h ch a j = img j := by
  intro h
  induction h with
  | zero => intro j _; rfl
  | succ n ih =>
    intro j hcond
    rw [fill_rows_succ, fill_row_out _ _ _ _ _ _ (fun i hi => hcond n (by omega) i hi)]
    exact ih j (fun rr hrr i hi => hcond rr (by omega) i hi)

theorem fill_rows_ch (img : Nat → Nat) (base stride w ch a : Nat) (hws : 2 * w ≤ stride) :
    ∀ (h rr i : Nat), rr < h → i < w →
    fill_rows img base stride w h ch a ((base + rr * stride) + 2 * i) = ch := by
  intro h
  induction h with
  | zero => intro rr i hrr _; omega
  | succ n ih =>
    intro rr i hrr hi
    rw [fill_rows_succ]
    rcases Nat.lt_succ_iff_lt_or_eq.mp hrr with hc | hc
    · rw [fill_row_out]
      · exact ih rr i hc hi
      · intro i2 hi2
        have := row_window_lt base stride (2 * i + 1) rr n (by omega) hc
        constructor <;> omega
    · subst hc
      exact fill_row_ch _ _ _ _ _ _ hi

theorem fill_rows_attr (img : Nat → Nat) (base stride w ch a : Nat) (hws : 2 * w ≤ stride) :
    ∀ (h rr i : Nat), rr < h → i < w →
    fill_rows img base stride w h ch a ((base + rr * stride) + 2 * i + 1) = a := by
  intro h
  induction h with
  | zero => intro rr i hrr _; omega
  | succ n ih =>
    intro rr i hrr hi
    rw [fill_rows_succ]
    rcases Nat.lt_succ_iff_lt_or_eq.mp hrr with hc | hc
    · rw [fill_row_out]
      · exact ih rr i hc hi
      · intro i2 hi2
        have := row_window_lt base stride (2 * i + 1) rr n (by omega) hc
        constructor <;> omega
    · subst hc
      exact fill_row_attr _ _ _ _ _ _ hi

-- ===================== scroll copy-loop lemmas =====================

theorem copy_rows_asc_succ (img : Nat → Nat) (base stride len k n : Nat) :
    copy_rows_asc img base stride len k (n + 1) =
      memcpy (copy_rows_asc img base stride len k n) (base + n * stride)
        (copy_rows_asc img base stride len k n) (base + (n + k) * stride) len := by
  unfold copy_rows_asc
  rw [List.range_succ, List.foldl_append]
  rfl

theorem copy_rows_asc_out (img : Nat → Nat) (base stride len k : Nat) : ∀ (m j : Nat),
    (∀ i, i < m → ¬(base + i * stride ≤ j ∧ j < base + i * stride + len)) →
    copy_rows_asc img base stride len k m j = img j := by
  intro m
  induction m with
  | zero => intro j _; rfl
  | succ n ih =>
    intro j h
    rw [copy_rows_asc_succ, memcpy_out _ _ _ _ _ _ (h n (by omega))]
    exact ih j (fun i hi => h i (by omega))

theorem copy_rows_asc_read (img : Nat → Nat) (base stride len k : Nat)
    (hlen : len ≤ stride) (hk : 1 ≤ k) : ∀ (m i j : Nat), i < m → j < len →
    copy_rows_asc img base stride len k m (base + i * stride + j) =
      img (base + (i + k) * stride + j) := by
  intro m
  induction m with
  | zero => intro i j hi _; omega
  | succ n ih =>
    intro i j hi hj
    rw [copy_rows_asc_succ]
    rcases Nat.lt_succ_iff_lt_or_eq.mp hi with hc | hc
    · rw [memcpy_out]
      · exact ih i j hc hj
      · have := row_window_lt base stride j i n (by omega) hc
        omega
    · subst hc
      rw [memcpy_in _ _ _ _ _ _ (by omega) (by omega)]
      have esub : base + i * stride + j - (base + i * stride) = j := by omega
      rw [esub]
      apply copy_rows_asc_out
      intro i2 hi2
      have h1 := row_le_mul stride (i2 + 1) (i + k) (by omega)
      have h2 : (i2 + 1) * stride = i2 * stride + stride := Nat.succ_mul i2 stride
      omega

theorem copy_rows_desc_succ (img : Nat → Nat) (base stride len k h n : Nat) :
    copy_rows_desc img base stride len k h (n + 1) =
      memcpy (copy_rows_desc img base stride len k h n) (base + (h - 1 - n) * stride)
        (copy_rows_desc img base stride len k h n) (base + (h - 1 - n - k) * stride) len := by
  unfold copy_rows_desc
  rw [List.range_succ, List.foldl_append]
  rfl

theorem copy_rows_desc_out (img : Nat → Nat) (base stride len k h : Nat) : ∀ (m j : Nat),
    (∀ i, i < m → ¬(base + (h - 1 - i) * stride ≤ j ∧ j < base + (h - 1 - i) * stride + len)) →
    copy_rows_desc img base stride len k h m j = img j := by
  intro m
  induction m with
  | zero => intro j _; rfl
  | succ n ih =>
    intro j hcond
    rw [copy_rows_desc_succ, memcpy_out _ _ _ _ _ _ (hcond n (by omega))]
    exact ih j (fun i hi => hcond i (by omega))

theorem copy_rows_desc_read (img : Nat → Nat) (base stride len k h : Nat)
    (hlen : len ≤ stride) (hk : 1 ≤ k) : ∀ (m : Nat), m + k ≤ h → ∀ (i j : Nat),
    i < m → j < len →
    copy_rows_desc img base stride len k h m (base + (h - 1 - i) * stride + j) =
      img (base + (h - 1 - i - k) * stride + j) := by
  intro m
  induction m with
  | zero => intro _ i j hi _; omega
  | succ n ih =>
    intro hmh i j hi hj
    rw [copy_rows_desc_succ]
    rcases Nat.lt_succ_iff_lt_or_eq.mp hi with hc | hc
    · rw [memcpy_out]
      · exact ih (by omega) i j hc hj
      · have h1 := row_le_mul stride (h - 1 - n + 1) (h - 1 - i) (by omega)
        have h2 : (h - 1 - n + 1) * stride = (h - 1 - n) * stride + stride :=
          Nat.succ_mul (h - 1 - n) stride
        omega
    · subst hc
      rw [memcpy_in _ _ _ _ _ _ (by omega) (by omega)]
      have esub : base + (h - 1 - i) * stride + j - (base + (h - 1 - i) * stride) = j := by omega
      rw [esub]
      apply copy_rows_desc_out
      intro i2 hi2
      have := row_window_lt base stride j (h - 1 - i - k) (h - 1 - i2) (by omega) (by omega)
      omega

theorem cell_notin_row_window (tc rw C W r' c' x : Nat)
    (hx : x = 2 * (c' - 1) ∨ x = 2 * (c' - 1) + 1)
    (hc1 : 1 ≤ c') (hc2 : c' ≤ tc) (hC1 : 1 ≤ C) (hCW : C + W ≤ tc + 1)
    (hout : r' - 1 ≠ rw ∨ c' < C ∨ C + W ≤ c') :
    ¬(rw * (2 * tc) + (C - 1) * 2 ≤ (r' - 1) * (2 * tc) + x ∧
      (r' - 1) * (2 * tc) + x < rw * (2 * tc) + (C - 1) * 2 + 2 * W) := by
  intro hin
  rcases Nat.lt_trichotomy (r' - 1) rw with hc | hc | hc
  · have := row_window_lt 0 (2 * tc) x (r' - 1) rw (by omega) hc
    omega
  · subst hc
    rcases hx with hx | hx <;> subst hx <;>
      (rcases hout with ho | ho | ho
       · exact ho rfl
       · omega
       · omega)
  · have h1 : (rw + 1) * (2 * tc) = rw * (2 * tc) + 2 * tc := Nat.succ_mul rw (2 * tc)
    have h2 : (rw + 1) * (2 * tc) ≤ (r' - 1) * (2 * tc) := row_le_mul (2 * tc) (rw + 1) (r' - 1) (by omega)
    omega

-- ===================== clear characterization =====================

theorem convert_attribute_idem (cw : Bool) (a : Nat) (h : a < 256) :
    convert_attribute cw (convert_attribute cw a) = convert_attribute cw a := by
  have hfin : ∀ b : Fin 256,
      convert_attribute cw (convert_attribute cw b.val) = convert_attribute cw b.val := by
    cases cw <;> decide
  exact hfin ⟨a, h⟩

theorem clear_cells (s : ScrState) (row column width height : Int) (attr : Nat)
    (htr : 1 ≤ s.total_rows) (htc : 1 ≤ s.total_columns)
    (R C W H : Nat)
    (hR : R = (adjust_dimensions (s.total_rows : Int) (s.total_columns : Int)
      row column width height).1.toNat)
    (hC : C = (adjust_dimensions (s.total_rows : Int) (s.total_columns : Int)
      row column width height).2.1.toNat)
    (hW : W = (adjust_dimensions (s.total_rows : Int) (s.total_columns : Int)
      row column width height).2.2.1.toNat)
    (hH : H = (adjust_dimensions (s.total_rows : Int) (s.total_columns : Int)
      row column width height).2.2.2.toNat) :
    (∀ rr i, rr < H → i < W →
      charAt (clear s row column width height attr) (R + rr) (C + i) = 32 ∧
      attrAt (clear s row column width height attr) (R + rr) (C + i) =
        convert_attribute s.color_works attr % 256) ∧
    (∀ r' c', 1 ≤ r' → r' ≤ s.total_rows → 1 ≤ c' → c' ≤ s.total_columns →
      (r' < R ∨ R + H ≤ r' ∨ c' < C ∨ C + W ≤ c') →
      charAt (clear s row column width height attr) r' c' = charAt s r' c' ∧
      attrAt (clear s row column width height attr) r' c' = attrAt s r' c') := by
  obtain ⟨b1, b2, b3, b4, b5, b6, b7, b8⟩ :=
    adjust_bounds (s.total_rows : Int) (s.total_columns : Int) row column width height
      (by exact_mod_cast htr) (by exact_mod_cast htc)
  have hR1 : 1 ≤ R := by omega
  have hRtr : R ≤ s.total_rows := by omega
  have hC1 : 1 ≤ C := by omega
  have hCtc : C ≤ s.total_columns := by omega
  have hW1 : 1 ≤ W := by omega
  have hH1 : 1 ≤ H := by omega
  have hRH : R + H ≤ s.total_rows + 1 := by omega
  have hCW : C + W ≤ s.total_columns + 1 := by omega
  have himg : (clear s row column width height attr).screen_image =
      fill_rows s.screen_image ((R - 1) * (2 * s.total_columns) + (C - 1) * 2)
        (2 * s.total_columns) W H 32 (convert_attribute s.color_works attr % 256) := by
    rw [hR, hC, hW, hH]; rfl
  have gtc : (clear s row column width height attr).total_columns = s.total_columns := rfl
  constructor
  · intro rr i hrr hi
    have e1 : R + rr - 1 = R - 1 + rr := by omega
    have em : (R - 1 + rr) * (2 * s.total_columns) =
        (R - 1) * (2 * s.total_columns) + rr * (2 * s.total_columns) :=
      Nat.add_mul (R - 1) rr (2 * s.total_columns)
    constructor
    · simp only [charAt, gtc, himg]
      have eidx : (R + rr - 1) * (2 * s.total_columns) + 2 * (C + i - 1) =
          (((R - 1) * (2 * s.total_columns) + (C - 1) * 2) + rr * (2 * s.total_columns)) +
            2 * i := by
        rw [e1, Nat.add_mul]
        omega
      rw [eidx]
      exact fill_rows_ch _ _ _ _ _ _ (by omega) H rr i hrr hi
    · simp only [attrAt, gtc, himg]
      have eidx : (R + rr - 1) * (2 * s.total_columns) + 2 * (C + i - 1) + 1 =
          (((R - 1) * (2 * s.total_columns) + (C - 1) * 2) + rr * (2 * s.total_columns)) +
            2 * i + 1 := by
        rw [e1, Nat.add_mul]
        omega
      rw [eidx]
      exact fill_rows_attr _ _ _ _ _ _ (by omega) H rr i hrr hi
  · intro r' c' hr1 hr2 hc1 hc2 hout
    have hnotin : ∀ x, x = 2 * (c' - 1) ∨ x = 2 * (c' - 1) + 1 →
        ∀ rr, rr < H → ∀ i, i < W →
        (r' - 1) * (2 * s.total_columns) + x ≠
          (((R - 1) * (2 * s.total_columns) + (C - 1) * 2) + rr * (2 * s.total_columns)) +
            2 * i ∧
        (r' - 1) * (2 * s.total_columns) + x ≠
          (((R - 1) * (2 * s.total_columns) + (C - 1) * 2) + rr * (2 * s.total_columns)) +
            2 * i + 1 := by
      intro x hx rr hrr i hi
      have em : (R - 1 + rr) * (2 * s.total_columns) =
          (R - 1) * (2 * s.total_columns) + rr * (2 * s.total_columns) :=
        Nat.add_mul (R - 1) rr (2 * s.total_columns)
      have hro : r' - 1 ≠ R - 1 + rr ∨ c' < C ∨ C + W ≤ c' := by
        rcases hout with ho | ho | ho | ho
        · exact Or.inl (by omega)
        · exact Or.inl (by omega)
        · exact Or.inr (Or.inl ho)
        · exact Or.inr (Or.inr ho)
      have hwin := cell_notin_row_window s.total_columns (R - 1 + rr) C W r' c' x hx
        hc1 hc2 hC1 (by omega) hro
      constructor <;> (intro heq; exact hwin ⟨by omega, by omega⟩)
    constructor
    · simp only [charAt, gtc, himg]
      rw [fill_rows_out]
      intro rr hrr i hi
      exact hnotin (2 * (c' - 1)) (Or.inl rfl) rr hrr i hi
    · simp only [attrAt, gtc, himg]
      rw [fill_rows_out]
      intro rr hrr i hi
      have h1 := hnotin (2 * (c' - 1) + 1) (Or.inr rfl) rr hrr i hi
      constructor <;> omega

-- ===================== scroll characterization helpers =====================

theorem scroll_up_cells (s : ScrState) (row column width height k : Int) (attr : Nat)
    (htr : 1 ≤ s.total_rows) (htc : 1 ≤ s.total_columns) (hattr : attr < 256)
    (hfix : adjust_dimensions (s.total_rows : Int) (s.total_columns : Int)
      row column width height = (row, column, width, height))
    (hk1 : 0 < k) (hk2 : k < height)
    (R C W H K : Nat)
    (hR : R = row.toNat) (hC : C = column.toNat) (hW : W = width.toNat)
    (hH : H = height.toNat) (hK : K = k.toNat)
    (t : ScrState)
    (ht : t = clear
      { s with
          screen_image := copy_rows_asc s.screen_image (regionBase s row column)
            (2 * s.total_columns) (2 * width.toNat) k.toNat (height.toNat - k.toNat) }
      (row + (height - k)) column width k (convert_attribute s.color_works attr)) :
    (∀ rr i, rr < H - K → i < W →
      charAt t (R + rr) (C + i) = charAt s (R + rr + K) (C + i) ∧
      attrAt t (R + rr) (C + i) = attrAt s (R + rr + K) (C + i)) ∧
    (∀ rr i, H - K ≤ rr → rr < H → i < W →
      charAt t (R + rr) (C + i) = 32 ∧
      attrAt t (R + rr) (C + i) = convert_attribute s.color_works attr) ∧
    (∀ r' c', 1 ≤ r' → r' ≤ s.total_rows → 1 ≤ c' → c' ≤ s.total_columns →
      (r' < R ∨ R + H ≤ r' ∨ c' < C ∨ C + W ≤ c') →
      charAt t r' c' = charAt s r' c' ∧ attrAt t r' c' = attrAt s r' c') := by
  subst ht
  obtain ⟨b1, b2, b3, b4, b5, b6, b7, b8⟩ :=
    adjust_bounds (s.total_rows : Int) (s.total_columns : Int) row column width height
      (by exact_mod_cast htr) (by exact_mod_cast htc)
  rw [hfix] at b1 b2 b3 b4 b5 b6 b7 b8
  simp only at b1 b2 b3 b4 b5 b6 b7 b8
  have hR1 : 1 ≤ R := by omega
  have hRtr : R ≤ s.total_rows := by omega
  have hC1 : 1 ≤ C := by omega
  have hCtc : C ≤ s.total_columns := by omega
  have hW1 : 1 ≤ W := by omega
  have hH1 : 1 ≤ H := by omega
  have hRH : R + H ≤ s.total_rows + 1 := by omega
  have hCW : C + W ≤ s.total_columns + 1 := by omega
  have hK1 : 1 ≤ K := by omega
  have hKH : K < H := by omega
  set s1 : ScrState :=
    { s with
        screen_image := copy_rows_asc s.screen_image (regionBase s row column)
          (2 * s.total_columns) (2 * width.toNat) k.toNat (height.toNat - k.toNat) } with hs1
  have hg1 : s1.total_rows = s.total_rows := rfl
  have hg2 : s1.total_columns = s.total_columns := rfl
  have hfix2 : adjust_dimensions (s.total_rows : Int) (s.total_columns : Int)
      (row + (height - k)) column width k = (row + (height - k), column, width, k) :=
    adjust_fixed _ _ _ _ _ _ (by omega) (by omega) (by omega) (by omega) (by omega)
      (by omega) (by omega) (by omega)
  have hcc := clear_cells s1 (row + (height - k)) column width k
    (convert_attribute s.color_works attr) htr htc (R + (H - K)) C W K
    (by show R + (H - K) = (adjust_dimensions (s.total_rows : Int) (s.total_columns : Int)
          (row + (height - k)) column width k).1.toNat
        rw [hfix2]; dsimp only; omega)
    (by show C = (adjust_dimensions (s.total_rows : Int) (s.total_columns : Int)
          (row + (height - k)) column width k).2.1.toNat
        rw [hfix2]; dsimp only; omega)
    (by show W = (adjust_dimensions (s.total_rows : Int) (s.total_columns : Int)
          (row + (height - k)) column width k).2.2.1.toNat
        rw [hfix2]; dsimp only; omega)
    (by show K = (adjust_dimensions (s.total_rows : Int) (s.total_columns : Int)
          (row + (height - k)) column width k).2.2.2.toNat
        rw [hfix2]; dsimp only; omega)
  have hbase : regionBase s row column = (R - 1) * (2 * s.total_columns) + (C - 1) * 2 := by
    rw [hR, hC]; rfl
  have hcw1 : convert_attribute s1.color_works (convert_attribute s.color_works attr) =
      convert_attribute s.color_works attr :=
    convert_attribute_idem s.color_works attr hattr
  refine ⟨?_, ?_, ?_⟩
  · -- surviving rows
    intro rr i hrr hi
    have hout1 := hcc.2 (R + rr) (C + i) (by omega) (by omega) (by omega) (by omega)
      (Or.inl (by omega))
    have hca : charAt s1 (R + rr) (C + i) =
        copy_rows_asc s.screen_image (regionBase s row column) (2 * s.total_columns)
          (2 * width.toNat) k.toNat (height.toNat - k.toNat)
          ((R + rr - 1) * (2 * s.total_columns) + 2 * (C + i - 1)) := rfl
    have haa : attrAt s1 (R + rr) (C + i) =
        copy_rows_asc s.screen_image (regionBase s row column) (2 * s.total_columns)
          (2 * width.toNat) k.toNat (height.toNat - k.toNat)
          ((R + rr - 1) * (2 * s.total_columns) + 2 * (C + i - 1) + 1) := rfl
    have e1 : R + rr - 1 = R - 1 + rr := by omega
    have eidx : (R + rr - 1) * (2 * s.total_columns) + 2 * (C + i - 1) =
        regionBase s row column + rr * (2 * s.total_columns) + 2 * i := by
      rw [hbase, e1, Nat.add_mul]; omega
    have eidx1 : (R + rr - 1) * (2 * s.total_columns) + 2 * (C + i - 1) + 1 =
        regionBase s row column + rr * (2 * s.total_columns) + (2 * i + 1) := by
      rw [hbase, e1, Nat.add_mul]; omega
    have e2 : R + rr + K - 1 = R - 1 + (rr + k.toNat) := by omega
    have em1 : (R - 1 + (rr + k.toNat)) * (2 * s.total_columns) =
        (R - 1) * (2 * s.total_columns) + (rr + k.toNat) * (2 * s.total_columns) :=
      Nat.add_mul _ _ _
    have em2 : (rr + k.toNat) * (2 * s.total_columns) =
        rr * (2 * s.total_columns) + k.toNat * (2 * s.total_columns) := Nat.add_mul _ _ _
    have eidx2 : regionBase s row column + (rr + k.toNat) * (2 * s.total_columns) + (2 * i) =
        (R + rr + K - 1) * (2 * s.total_columns) + 2 * (C + i - 1) := by
      rw [hbase, e2]; omega
    have eidx3 : regionBase s row column + (rr + k.toNat) * (2 * s.total_columns) +
        (2 * i + 1) = (R + rr + K - 1) * (2 * s.total_columns) + 2 * (C + i - 1) + 1 := by
      rw [hbase, e2]; omega
    constructor
    · rw [hout1.1, hca, eidx,
        copy_rows_asc_read s.screen_image (regionBase s row column) (2 * s.total_columns)
          (2 * width.toNat) k.toNat (by omega) (by omega) (height.toNat - k.toNat) rr (2 * i)
          (by omega) (by omega), eidx2]
      rfl
    · rw [hout1.2, haa, eidx1,
        copy_rows_asc_read s.screen_image (regionBase s row column) (2 * s.total_columns)
          (2 * width.toNat) k.toNat (by omega) (by omega) (height.toNat - k.toNat) rr
          (2 * i + 1) (by omega) (by omega), eidx3]
      rfl
  · -- vacated rows
    intro rr i hrr1 hrr2 hi
    have hin := hcc.1 (rr - (H - K)) i (by omega) hi
    have e1 : R + (H - K) + (rr - (H - K)) = R + rr := by omega
    rw [e1] at hin
    refine ⟨hin.1, ?_⟩
    rw [hin.2, hcw1, convert_attribute_mod s.color_works attr hattr]
  · -- cells outside the region
    intro r' c' hr1 hr2 hc1 hc2 hout
    have hout1 := hcc.2 r' c' hr1 hr2 hc1 hc2
      (by rcases hout with ho | ho | ho | ho
          · exact Or.inl (by omega)
          · exact Or.inr (Or.inl (by omega))
          · exact Or.inr (Or.inr (Or.inl ho))
          · exact Or.inr (Or.inr (Or.inr ho)))
    have hnotin : ∀ x, x = 2 * (c' - 1) ∨ x = 2 * (c' - 1) + 1 →
        ∀ i2, i2 < height.toNat - k.toNat →
        ¬(regionBase s row column + i2 * (2 * s.total_columns) ≤
            (r' - 1) * (2 * s.total_columns) + x ∧
          (r' - 1) * (2 * s.total_columns) + x <
            regionBase s row column + i2 * (2 * s.total_columns) + 2 * width.toNat) := by
      intro x hx i2 hi2
      have em : (R - 1 + i2) * (2 * s.total_columns) =
          (R - 1) * (2 * s.total_columns) + i2 * (2 * s.total_columns) :=
        Nat.add_mul (R - 1) i2 (2 * s.total_columns)
      have hro : r' - 1 ≠ R - 1 + i2 ∨ c' < C ∨ C + W ≤ c' := by
        rcases hout with ho | ho | ho | ho
        · exact Or.inl (by omega)
        · exact Or.inl (by omega)
        · exact Or.inr (Or.inl ho)
        · exact Or.inr (Or.inr ho)
      have hwin := cell_notin_row_window s.total_columns (R - 1 + i2) C W r' c' x hx
        hc1 hc2 hC1 (by omega) hro
      intro hcontra
      exact hwin ⟨by omega, by omega⟩
    have hca : charAt s1 r' c' =
        copy_rows_asc s.screen_image (regionBase s row column) (2 * s.total_columns)
          (2 * width.toNat) k.toNat (height.toNat - k.toNat)
          ((r' - 1) * (2 * s.total_columns) + 2 * (c' - 1)) := rfl
    have haa : attrAt s1 r' c' =
        copy_rows_asc s.screen_image (regionBase s row column) (2 * s.total_columns)
          (2 * width.toNat) k.toNat (height.toNat - k.toNat)
          ((r' - 1) * (2 * s.total_columns) + 2 * (c' - 1) + 1) := rfl
    constructor
    · rw [hout1.1, hca, copy_rows_asc_out]
      · rfl
      · exact fun i2 hi2 => hnotin (2 * (c' - 1)) (Or.inl rfl) i2 hi2
    · rw [hout1.2, haa, copy_rows_asc_out]
      · rfl
      · intro i2 hi2
        have := hnotin (2 * (c' - 1) + 1) (Or.inr rfl) i2 hi2
        omega

theorem scroll_down_cells (s : ScrState) (row column width height k : Int) (attr : Nat)
    (htr : 1 ≤ s.total_rows) (htc : 1 ≤ s.total_columns) (hattr : attr < 256)
    (hfix : adjust_dimensions (s.total_rows : Int) (s.total_columns : Int)
      row column width height = (row, column, width, height))
    (hk1 : 0 < k) (hk2 : k < height)
    (R C W H K : Nat)
    (hR : R = row.toNat) (hC : C = column.toNat) (hW : W = width.toNat)
    (hH : H = height.toNat) (hK : K = k.toNat)
    (t : ScrState)
    (ht : t = clear
      { s with
          screen_image := copy_rows_desc s.screen_image (regionBase s row column)
            (2 * s.total_columns) (2 * width.toNat) k.toNat height.toNat
            (height.toNat - k.toNat) }
      row column width k (convert_attribute s.color_works attr)) :
    (∀ rr i, K ≤ rr → rr < H → i < W →
      charAt t (R + rr) (C + i) = charAt s (R + rr - K) (C + i) ∧
      attrAt t (R + rr) (C + i) = attrAt s (R + rr - K) (C + i)) ∧
    (∀ rr i, rr < K → i < W →
      charAt t (R + rr) (C + i) = 32 ∧
      attrAt t (R + rr) (C + i) = convert_attribute s.color_works attr) ∧
    (∀ r' c', 1 ≤ r' → r' ≤ s.total_rows → 1 ≤ c' → c' ≤ s.total_columns →
      (r' < R ∨ R + H ≤ r' ∨ c' < C ∨ C + W ≤ c') →
      charAt t r' c' = charAt s r' c' ∧ attrAt t r' c' = attrAt s r' c') := by
  subst ht
  obtain ⟨b1, b2, b3, b4, b5, b6, b7, b8⟩ :=
    adjust_bounds (s.total_rows : Int) (s.total_columns : Int) row column width height
      (by exact_mod_cast htr) (by exact_mod_cast htc)
  rw [hfix] at b1 b2 b3 b4 b5 b6 b7 b8
  simp only at b1 b2 b3 b4 b5 b6 b7 b8
  have hR1 : 1 ≤ R := by omega
  have hRtr : R ≤ s.total_rows := by omega
  have hC1 : 1 ≤ C := by omega
  have hCtc : C ≤ s.total_columns := by omega
  have hW1 : 1 ≤ W := by omega
  have hH1 : 1 ≤ H := by omega
  have hRH : R + H ≤ s.total_rows + 1 := by omega
  have hCW : C + W ≤ s.total_columns + 1 := by omega
  have hK1 : 1 ≤ K := by omega
  have hKH : K < H := by omega
  set s1 : ScrState :=
    { s with
        screen_image := copy_rows_desc s.screen_image (regionBase s row column)
          (2 * s.total_columns) (2 * width.toNat) k.toNat height.toNat
          (height.toNat - k.toNat) } with hs1
  have hg1 : s1.total_rows = s.total_rows := rfl
  have hg2 : s1.total_columns = s.total_columns := rfl
  have hfix2 : adjust_dimensions (s.total_rows : Int) (s.total_columns : Int)
      row column width k = (row, column, width, k) :=
    adjust_fixed _ _ _ _ _ _ (by omega) (by omega) (by omega) (by omega) (by omega)
      (by omega) (by omega) (by omega)
  have hcc := clear_cells s1 row column width k
    (convert_attribute s.color_works attr) htr htc R C W K
    (by show R = (adjust_dimensions (s.total_rows : Int) (s.total_columns : Int)
          row column width k).1.toNat
        rw [hfix2]; dsimp only; omega)
    (by show C = (adjust_dimensions (s.total_rows : Int) (s.total_columns : Int)
          row column width k).2.1.toNat
        rw [hfix2]; dsimp only; omega)
    (by show W = (adjust_dimensions (s.total_rows : Int) (s.total_columns : Int)
          row column width k).2.2.1.toNat
        rw [hfix2]; dsimp only; omega)
    (by show K = (adjust_dimensions (s.total_rows : Int) (s.total_columns : Int)
          row column width k).2.2.2.toNat
        rw [hfix2]; dsimp only; omega)
  have hbase : regionBase s row column = (R - 1) * (2 * s.total_columns) + (C - 1) * 2 := by
    rw [hR, hC]; rfl
  have hcw1 : convert_attribute s1.color_works (convert_attribute s.color_works attr) =
      convert_attribute s.color_works attr :=
    convert_attribute_idem s.color_works attr hattr
  refine ⟨?_, ?_, ?_⟩
  · -- moved rows (content shifts down by K)
    intro rr i hrrK hrrH hi
    have hout1 := hcc.2 (R + rr) (C + i) (by omega) (by omega) (by omega) (by omega)
      (Or.inr (Or.inl (by omega)))
    have hca : charAt s1 (R + rr) (C + i) =
        copy_rows_desc s.screen_image (regionBase s row column) (2 * s.total_columns)
          (2 * width.toNat) k.toNat height.toNat (height.toNat - k.toNat)
          ((R + rr - 1) * (2 * s.total_columns) + 2 * (C + i - 1)) := rfl
    have haa : attrAt s1 (R + rr) (C + i) =
        copy_rows_desc s.screen_image (regionBase s row column) (2 * s.total_columns)
          (2 * width.toNat) k.toNat height.toNat (height.toNat - k.toNat)
          ((R + rr - 1) * (2 * s.total_columns) + 2 * (C + i - 1) + 1) := rfl
    have e1 : R + rr - 1 = R - 1 + rr := by omega
    have eidx : (R + rr - 1) * (2 * s.total_columns) + 2 * (C + i - 1) =
        regionBase s row column + rr * (2 * s.total_columns) + 2 * i := by
      rw [hbase, e1, Nat.add_mul]; omega
    have eidx1 : (R + rr - 1) * (2 * s.total_columns) + 2 * (C + i - 1) + 1 =
        regionBase s row column + rr * (2 * s.total_columns) + (2 * i + 1) := by
      rw [hbase, e1, Nat.add_mul]; omega
    have er : height.toNat - 1 - (height.toNat - 1 - rr) = rr := by omega
    have hdr := copy_rows_desc_read s.screen_image (regionBase s row column)
      (2 * s.total_columns) (2 * width.toNat) k.toNat height.toNat (by omega) (by omega)
      (height.toNat - k.toNat) (by omega) (height.toNat - 1 - rr) (2 * i) (by omega) (by omega)
    have hdr1 := copy_rows_desc_read s.screen_image (regionBase s row column)
      (2 * s.total_columns) (2 * width.toNat) k.toNat height.toNat (by omega) (by omega)
      (height.toNat - k.toNat) (by omega) (height.toNat - 1 - rr) (2 * i + 1) (by omega)
      (by omega)
    rw [er] at hdr hdr1
    have e2 : R + rr - K - 1 = R - 1 + (rr - k.toNat) := by omega
    have em1 : (R - 1 + (rr - k.toNat)) * (2 * s.total_columns) =
        (R - 1) * (2 * s.total_columns) + (rr - k.toNat) * (2 * s.total_columns) :=
      Nat.add_mul _ _ _
    have eidx2 : regionBase s row column + (rr - k.toNat) * (2 * s.total_columns) + 2 * i =
        (R + rr - K - 1) * (2 * s.total_columns) + 2 * (C + i - 1) := by
      rw [hbase, e2]; omega
    have eidx3 : regionBase s row column + (rr - k.toNat) * (2 * s.total_columns) +
        (2 * i + 1) = (R + rr - K - 1) * (2 * s.total_columns) + 2 * (C + i - 1) + 1 := by
      rw [hbase, e2]; omega
    constructor
    · rw [hout1.1, hca, eidx, hdr, eidx2]
      rfl
    · rw [hout1.2, haa, eidx1, hdr1, eidx3]
      rfl
  · -- vacated rows at the top
    intro rr i hrr hi
    have hin := hcc.1 rr i (by omega) hi
    refine ⟨hin.1, ?_⟩
    rw [hin.2, hcw1, convert_attribute_mod s.color_works attr hattr]
  · -- cells outside the region
    intro r' c' hr1 hr2 hc1 hc2 hout
    have hout1 := hcc.2 r' c' hr1 hr2 hc1 hc2
      (by rcases hout with ho | ho | ho | ho
          · exact Or.inl ho
          · exact Or.inr (Or.inl (by omega))
          · exact Or.inr (Or.inr (Or.inl ho))
          · exact Or.inr (Or.inr (Or.inr ho)))
    have hnotin : ∀ x, x = 2 * (c' - 1) ∨ x = 2 * (c' - 1) + 1 →
        ∀ i2, i2 < height.toNat - k.toNat →
        ¬(regionBase s row column + (height.toNat - 1 - i2) * (2 * s.total_columns) ≤
            (r' - 1) * (2 * s.total_columns) + x ∧
          (r' - 1) * (2 * s.total_columns) + x <
            regionBase s row column + (height.toNat - 1 - i2) * (2 * s.total_columns) +
              2 * width.toNat) := by
      intro x hx i2 hi2
      have em : (R - 1 + (height.toNat - 1 - i2)) * (2 * s.total_columns) =
          (R - 1) * (2 * s.total_columns) + (height.toNat - 1 - i2) * (2 * s.total_columns) :=
        Nat.add_mul (R - 1) (height.toNat - 1 - i2) (2 * s.total_columns)
      have hro : r' - 1 ≠ R - 1 + (height.toNat - 1 - i2) ∨ c' < C ∨ C + W ≤ c' := by
        rcases hout with ho | ho | ho | ho
        · exact Or.inl (by omega)
        · exact Or.inl (by omega)
        · exact Or.inr (Or.inl ho)
        · exact Or.inr (Or.inr ho)
      have hwin := cell_notin_row_window s.total_columns (R - 1 + (height.toNat - 1 - i2))
        C W r' c' x hx hc1 hc2 hC1 (by omega) hro
      intro hcontra
      exact hwin ⟨by omega, by omega⟩
    have hca : charAt s1 r' c' =
        copy_rows_desc s.screen_image (regionBase s row column) (2 * s.total_columns)
          (2 * width.toNat) k.toNat height.toNat (height.toNat - k.toNat)
          ((r' - 1) * (2 * s.total_columns) + 2 * (c' - 1)) := rfl
    have haa : attrAt s1 r' c' =
        copy_rows_desc s.screen_image (regionBase s row column) (2 * s.total_columns)
          (2 * width.toNat) k.toNat height.toNat (height.toNat - k.toNat)
          ((r' - 1) * (2 * s.total_columns) + 2 * (c' - 1) + 1) := rfl
    constructor
    · rw [hout1.1, hca, copy_rows_desc_out]
      · rfl
      · exact fun i2 hi2 => hnotin (2 * (c' - 1)) (Or.inl rfl) i2 hi2
    · rw [hout1.2, haa, copy_rows_desc_out]
      · rfl
      · intro i2 hi2
        have := hnotin (2 * (c' - 1) + 1) (Or.inr rfl) i2 hi2
        omega

-- ===================== Claim C2: scroll =====================

/-- Claim C2: for a clamped region of height H, scroll is a no-op for
rowsToScroll <= 0; for rowsToScroll >= H it equals clear of the region;
for 0 < rowsToScroll < H the surviving rows move toward the scroll
direction preserving order and contents (characters and attributes),
exactly the vacated trailing rows are filled with spaces in the
converted attribute, and every cell outside the region is unchanged. -/
theorem scroll_spec (s : ScrState) (dir : direction_t) (row column width height k : Int)
    (attr : Nat)
    (htr : 1 ≤ s.total_rows) (htc : 1 ≤ s.total_columns) (hattr : attr < 256)
    (hfix : adjust_dimensions (s.total_rows : Int) (s.total_columns : Int)
      row column width height = (row, column, width, height))
    (R C W H K : Nat)
    (hR : R = row.toNat) (hC : C = column.toNat) (hW : W = width.toNat)
    (hH : H = height.toNat) (hK : K = k.toNat) :
    (k ≤ 0 → scroll s dir row column width height k attr = s) ∧
    (height ≤ k → scroll s dir row column width height k attr =
      clear s row column width height attr) ∧
    (0 < k → k < height →
      (dir = direction_t.UP →
        (∀ rr i, rr < H - K → i < W →
          charAt (scroll s dir row column width height k attr) (R + rr) (C + i) =
            charAt s (R + rr + K) (C + i) ∧
          attrAt (scroll s dir row column width height k attr) (R + rr) (C + i) =
            attrAt s (R + rr + K) (C + i)) ∧
        (∀ rr i, H - K ≤ rr → rr < H → i < W →
          charAt (scroll s dir row column width height k attr) (R + rr) (C + i) = 32 ∧
          attrAt (scroll s dir row column width height k attr) (R + rr) (C + i) =
            convert_attribute s.color_works attr)) ∧
      (dir = direction_t.DOWN →
        (∀ rr i, K ≤ rr → rr < H → i < W →
          charAt (scroll s dir row column width height k attr) (R + rr) (C + i) =
            charAt s (R + rr - K) (C + i) ∧
          attrAt (scroll s dir row column width height k attr) (R + rr) (C + i) =
            attrAt s (R + rr - K) (C + i)) ∧
        (∀ rr i, rr < K → i < W →
          charAt (scroll s dir row column width height k attr) (R + rr) (C + i) = 32 ∧
          attrAt (scroll s dir row column width height k attr) (R + rr) (C + i) =
            convert_attribute s.color_works attr)) ∧
      (∀ r' c', 1 ≤ r' → r' ≤ s.total_rows → 1 ≤ c' → c' ≤ s.total_columns →
        (r' < R ∨ R + H ≤ r' ∨ c' < C ∨ C + W ≤ c') →
        charAt (scroll s dir row column width height k attr) r' c' = charAt s r' c' ∧
        attrAt (scroll s dir row column width height k attr) r' c' = attrAt s r' c')) := by
  obtain ⟨b1, b2, b3, b4, b5, b6, b7, b8⟩ :=
    adjust_bounds (s.total_rows : Int) (s.total_columns : Int) row column width height
      (by exact_mod_cast htr) (by exact_mod_cast htc)
  rw [hfix] at b1 b2 b3 b4 b5 b6 b7 b8
  simp only at b1 b2 b3 b4 b5 b6 b7 b8
  refine ⟨?_, ?_, ?_⟩
  · intro hk0
    cases dir <;> (simp only [scroll]; rw [if_pos hk0])
  · intro hhk
    have hstep : scroll s dir row column width height k attr =
        clear s row column width height (convert_attribute s.color_works attr) := by
      cases dir <;>
        (simp only [scroll, hfix]
         rw [if_neg (by omega), if_pos hhk])
    rw [hstep]
    simp only [clear]
    rw [convert_attribute_idem s.color_works attr hattr]
  · intro hka hkb
    cases dir with
    | UP =>
      have hs' : scroll s direction_t.UP row column width height k attr = clear
          { s with
              screen_image := copy_rows_asc s.screen_image (regionBase s row column)
                (2 * s.total_columns) (2 * width.toNat) k.toNat (height.toNat - k.toNat) }
          (row + (height - k)) column width k (convert_attribute s.color_works attr) := by
        simp only [scroll, hfix]
        rw [if_neg (by omega), if_neg (by omega)]
      obtain ⟨p1, p2, p3⟩ := scroll_up_cells s row column width height k attr htr htc hattr
        hfix hka hkb R C W H K hR hC hW hH hK
        (scroll s direction_t.UP row column width height k attr) hs'
      exact ⟨fun _ => ⟨p1, p2⟩, fun hcon => absurd hcon (by decide), p3⟩
    | DOWN =>
      have hs' : scroll s direction_t.DOWN row column width height k attr = clear
          { s with
              screen_image := copy_rows_desc s.screen_image (regionBase s row column)
                (2 * s.total_columns) (2 * width.toNat) k.toNat height.toNat
                (height.toNat - k.toNat) }
          row column width k (convert_attribute s.color_works attr) := by
        simp only [scroll, hfix]
        rw [if_neg (by omega), if_neg (by omega)]
      obtain ⟨p1, p2, p3⟩ := scroll_down_cells s row column width height k attr htr htc hattr
        hfix hka hkb R C W H K hR hC hW hH hK
        (scroll s direction_t.DOWN row column width height k attr) hs'
      exact ⟨fun hcon => absurd hcon (by decide), fun _ => ⟨p1, p2⟩, p3⟩

theorem scroll_spec_witness :
    1 ≤ (4 : Nat) ∧ 1 ≤ (3 : Nat) ∧ (7 : Nat) < 256 ∧
    adjust_dimensions ((4 : Nat) : Int) ((3 : Nat) : Int) 1 1 3 4 = (1, 1, 3, 4) ∧
    (1 : Nat) = (1 : Int).toNat ∧ (1 : Nat) = (1 : Int).toNat ∧ (3 : Nat) = (3 : Int).toNat ∧
    (4 : Nat) = (4 : Int).toNat ∧ (2 : Nat) = (2 : Int).toNat ∧
    (((2 : Int) ≤ 0 →
      scroll ⟨4, 3, true, fun i => i + 40, fun _ => 32, 1, 1, 1, 1⟩ direction_t.UP 1 1 3 4 2 7 =
        ⟨4, 3, true, fun i => i + 40, fun _ => 32, 1, 1, 1, 1⟩) ∧
    ((4 : Int) ≤ 2 →
      scroll ⟨4, 3, true, fun i => i + 40, fun _ => 32, 1, 1, 1, 1⟩ direction_t.UP 1 1 3 4 2 7 =
        clear ⟨4, 3, true, fun i => i + 40, fun _ => 32, 1, 1, 1, 1⟩ 1 1 3 4 7) ∧
    ((0 : Int) < 2 → (2 : Int) < 4 →
      (direction_t.UP = direction_t.UP →
        (∀ rr i, rr < 4 - 2 → i < 3 →
          charAt (scroll ⟨4, 3, true, fun i => i + 40, fun _ => 32, 1, 1, 1, 1⟩
              direction_t.UP 1 1 3 4 2 7) (1 + rr) (1 + i) =
            charAt (⟨4, 3, true, fun i => i + 40, fun _ => 32, 1, 1, 1, 1⟩ : ScrState)
              (1 + rr + 2) (1 + i) ∧
          attrAt (scroll ⟨4, 3, true, fun i => i + 40, fun _ => 32, 1, 1, 1, 1⟩
              direction_t.UP 1 1 3 4 2 7) (1 + rr) (1 + i) =
            attrAt (⟨4, 3, true, fun i => i + 40, fun _ => 32, 1, 1, 1, 1⟩ : ScrState)
              (1 + rr + 2) (1 + i)) ∧
        (∀ rr i, 4 - 2 ≤ rr → rr < 4 → i < 3 →
          charAt (scroll ⟨4, 3, true, fun i => i + 40, fun _ => 32, 1, 1, 1, 1⟩
              direction_t.UP 1 1 3 4 2 7) (1 + rr) (1 + i) = 32 ∧
          attrAt (scroll ⟨4, 3, true, fun i => i + 40, fun _ => 32, 1, 1, 1, 1⟩
              direction_t.UP 1 1 3 4 2 7) (1 + rr) (1 + i) = convert_attribute true 7)) ∧
      (direction_t.UP = direction_t.DOWN →
        (∀ rr i, 2 ≤ rr → rr < 4 → i < 3 →
          charAt (scroll ⟨4, 3, true, fun i => i + 40, fun _ => 32, 1, 1, 1, 1⟩
              direction_t.UP 1 1 3 4 2 7) (1 + rr) (1 + i) =
            charAt (⟨4, 3, true, fun i => i + 40, fun _ => 32, 1, 1, 1, 1⟩ : ScrState)
              (1 + rr - 2) (1 + i) ∧
          attrAt (scroll ⟨4, 3, true, fun i => i + 40, fun _ => 32, 1, 1, 1, 1⟩
              direction_t.UP 1 1 3 4 2 7) (1 + rr) (1 + i) =
            attrAt (⟨4, 3, true, fun i => i + 40, fun _ => 32, 1, 1, 1, 1⟩ : ScrState)
              (1 + rr - 2) (1 + i)) ∧
        (∀ rr i, rr < 2 → i < 3 →
          charAt (scroll ⟨4, 3, true, fun i => i + 40, fun _ => 32, 1, 1, 1, 1⟩
              direction_t.UP 1 1 3 4 2 7) (1 + rr) (1 + i) = 32 ∧
          attrAt (scroll ⟨4, 3, true, fun i => i + 40, fun _ => 32, 1, 1, 1, 1⟩
              direction_t.UP 1 1 3 4 2 7) (1 + rr) (1 + i) = convert_attribute true 7)) ∧
      (∀ r' c', 1 ≤ r' → r' ≤ (4 : Nat) → 1 ≤ c' → c' ≤ (3 : Nat) →
        (r' < 1 ∨ 1 + 4 ≤ r' ∨ c' < 1 ∨ 1 + 3 ≤ c') →
        charAt (scroll ⟨4, 3, true, fun i => i + 40, fun _ => 32, 1, 1, 1, 1⟩
            direction_t.UP 1 1 3 4 2 7) r' c' =
          charAt (⟨4, 3, true, fun i => i + 40, fun _ => 32, 1, 1, 1, 1⟩ : ScrState) r' c' ∧
        attrAt (scroll ⟨4, 3, true, fun i => i + 40, fun _ => 32, 1, 1, 1, 1⟩
            direction_t.UP 1 1 3 4 2 7) r' c' =
          attrAt (⟨4, 3, true, fun i => i + 40, fun _ => 32, 1, 1, 1, 1⟩ : ScrState) r' c'))) :=
  ⟨by decide, by decide, by decide, by decide, by decide, by decide, by decide, by decide,
    by decide,
    scroll_spec ⟨4, 3, true, fun i => i + 40, fun _ => 32, 1, 1, 1, 1⟩ direction_t.UP
      1 1 3 4 2 7 (by decide) (by decide) (by decide) (by decide) 1 1 3 4 2
      (by decide) (by decide) (by decide) (by decide) (by decide)⟩

end scr
